import Mathlib

/-!
# Verification of `awsbill2graphite.py`

Shallow embedding of the core of `awsbill2graphite.py`:

* Python strings are modelled as `List Char` (`Str`); `str` turns a Lean
  string literal into that representation.
* Python floats are modelled as rationals (`ℚ`); billing amounts are plain
  decimal literals, so no binary-float artefact is relevant to the claims.
* Python exceptions are modelled with `Except PyErr`; each constructor of
  `PyErr` names the Python exception class the code would raise.
* `dict`s with a fixed literal key set are modelled as association lists in
  the iteration order of the CPython 2.7 hash table for those keys.
* The memoisation of `Row._usage_type` is dropped: the field is a pure
  function of the row's content, so recomputation is observationally equal.
-/

abbrev Str := List Char

def str (s : String) : Str := s.data

/-- Python exception kinds raised by the embedded code. -/
inductive PyErr where
  | keyError : Str → PyErr
  | valueError : PyErr
  | indexError : PyErr
  | typeError : PyErr
  | attributeError : PyErr
  | exception : PyErr
deriving DecidableEq

instance {ε α : Type} [DecidableEq ε] [DecidableEq α] : DecidableEq (Except ε α)
  | .error e, .error e' =>
    if h : e = e' then isTrue (by rw [h]) else isFalse (fun hh => by cases hh; exact h rfl)
  | .error _, .ok _ => isFalse (fun hh => by cases hh)
  | .ok _, .error _ => isFalse (fun hh => by cases hh)
  | .ok a, .ok a' =>
    if h : a = a' then isTrue (by rw [h]) else isFalse (fun hh => by cases hh; exact h rfl)

/-- Python `s.startswith(p)`: `startsW p s` is true when `p` begins `s`. -/
def startsW : Str → Str → Bool
  | [], _ => true
  | _ :: _, [] => false
  | p :: ps, c :: cs => if p = c then startsW ps cs else false

/-- Python `s.endswith(p)`. -/
def endsW (p s : Str) : Bool := startsW p.reverse s.reverse

/-- Python `p in s` (substring containment). -/
def infixW (p s : Str) : Bool := s.tails.any (fun t => startsW p t)

/-- Python `s.split(sep, 1)`: the part before the first separator, and the
part after it when the separator occurs (`none` when it does not). -/
def pySplit1 (sep : Char) : Str → Str × Option Str
  | [] => ([], none)
  | c :: rest =>
    if c = sep then ([], some rest)
    else
      let r := pySplit1 sep rest
      (c :: r.1, r.2)

/-- Python `s.replace(a, b)` for single characters. -/
def pyReplace (a b : Char) (s : Str) : Str :=
  s.map fun c => if c = a then b else c

/-- Python `s.isupper()` restricted to ASCII: at least one cased character
and no cased character in lowercase. -/
def pyIsUpper (s : Str) : Bool :=
  s.any (fun c => c.isAlpha) && s.all (fun c => !c.isAlpha || c.isUpper)

/-- A `datetime.datetime` value as produced by `parse_datetime`. -/
structure DateTime where
  year : ℕ
  month : ℕ
  day : ℕ
  hour : ℕ
  minute : ℕ
  second : ℕ
deriving DecidableEq

def isLeapYear (y : ℕ) : Bool :=
  decide (y % 4 = 0) && (decide (y % 100 ≠ 0) || decide (y % 400 = 0))

def daysInMonth (y m : ℕ) : ℕ :=
  if m = 2 then (if isLeapYear y then 29 else 28)
  else if m = 4 ∨ m = 6 ∨ m = 9 ∨ m = 11 then 30
  else 31

def daysBeforeMonth (y m : ℕ) : ℕ :=
  ((List.range (m - 1)).map (fun i => daysInMonth y (i + 1))).sum

/-- Day number of a proleptic-Gregorian date (1-1-1 is day 1). -/
def rataDie (y m d : ℕ) : ℕ :=
  365 * (y - 1) + (y - 1) / 4 - (y - 1) / 100 + (y - 1) / 400 + daysBeforeMonth y m + d

/-- Seconds since the Unix epoch; both `datetime` subtraction (used by
`Row.interval`) and `strftime('%s')` (used by the formatter, with the
process running in UTC) reduce to differences of this count. -/
def DateTime.toEpoch (t : DateTime) : ℤ :=
  86400 * ((rataDie t.year t.month t.day : ℤ) - (rataDie 1970 1 1 : ℤ))
    + 3600 * (t.hour : ℤ) + 60 * (t.minute : ℤ) + (t.second : ℤ)

def digitsToNat (s : Str) : ℕ := s.foldl (fun a c => 10 * a + (c.toNat - 48)) 0

/-- Python `int()` on the timestamp slices; the billing timestamps hold
plain digit runs, which is the only shape the program relies on. -/
def intOfDigits (s : Str) : Except PyErr ℕ :=
  if s ≠ [] ∧ s.all Char.isDigit then .ok (digitsToNat s) else .error .valueError

/-- `parse_datetime`: fixed-position slices of `2006-01-02T15:04:05Z`,
then the `datetime` constructor's range validation. -/
def parse_datetime (ts : Str) : Except PyErr DateTime := do
  let y ← intOfDigits (ts.take 4)
  let mo ← intOfDigits ((ts.drop 5).take 2)
  let d ← intOfDigits ((ts.drop 8).take 2)
  let h ← intOfDigits ((ts.drop 11).take 2)
  let mi ← intOfDigits ((ts.drop 14).take 2)
  let s ← intOfDigits ((ts.drop 17).take 2)
  if 1 ≤ y ∧ y ≤ 9999 ∧ 1 ≤ mo ∧ mo ≤ 12 ∧ 1 ≤ d ∧ d ≤ daysInMonth y mo
      ∧ h ≤ 23 ∧ mi ≤ 59 ∧ s ≤ 59 then
    .ok ⟨y, mo, d, h, mi, s⟩
  else .error .valueError

/-- Python `float()` on a plain decimal literal (optional sign, integer
digits, optional fractional digits), the shape of `lineItem/BlendedCost`. -/
def pyFloat (s : Str) : Except PyErr ℚ :=
  let core : Str := match s with | '-' :: r => r | '+' :: r => r | r => r
  let neg : Bool := match s with | '-' :: _ => true | _ => false
  let p := pySplit1 '.' core
  let ip := p.1
  let fp := (p.2).getD []
  if (ip ++ fp).all Char.isDigit ∧ ip ++ fp ≠ [] then
    .ok ((if neg then (-1 : ℚ) else 1) *
      ((digitsToNat ip : ℚ) + (digitsToNat fp : ℚ) / ((10 : ℚ) ^ fp.length)))
  else .error .valueError

def lookupStr : List (Str × Str) → Str → Option Str
  | [], _ => none
  | (a, b) :: rest, k => if a = k then some b else lookupStr rest k

def REGION_NAMES : List (Str × Str) := [
  (str "US East (N. Virginia)", str "us-east-1"),
  (str "US West (N. California)", str "us-west-1"),
  (str "US West (Oregon)", str "us-west-2"),
  (str "EU (Ireland)", str "eu-west-1"),
  (str "EU (Frankfurt)", str "eu-central-1"),
  (str "Asia Pacific (Tokyo)", str "ap-northeast-1"),
  (str "Asia Pacific (Seoul)", str "ap-northeast-2"),
  (str "Asia Pacific (Singapore)", str "ap-southeast-1"),
  (str "Asia Pacific (Sydney)", str "ap-southeast-2"),
  (str "South America (Sao Paulo)", str "sa-east-1")]

def EBS_TYPES : List (Str × Str) := [
  (str "Magnetic", str "standard"),
  (str "General Purpose", str "gp2"),
  (str "Provisioned IOPS", str "io1"),
  (str "Unknown Storage", str "unknown")]

/-- The `RDS_STORAGE_TYPES` dict. The list order is the iteration order of
`.keys()` under CPython 2.7 (slots 2 and 3 of the 8-slot table), which here
coincides with the insertion order of the literal. -/
def RDS_STORAGE_TYPES : List (Str × Str) := [
  (str "Provisioned IOPS Storage", str "io1"),
  (str "provisioned GP2 storage", str "gp2")]

/-- One billing CSV row, restricted to the columns the program consumes
(spec §6). Each field holds `self.content[column]` for the column named in
its comment; `volumeType = none` models absence of the
`product/volumeType` key from the row's column map. -/
structure Row where
  lineItemType : Str        -- lineItem/LineItemType
  usageTypeRaw : Str        -- lineItem/UsageType
  lineItemDescription : Str -- lineItem/LineItemDescription
  blendedCost : Str         -- lineItem/BlendedCost
  location : Str            -- product/location
  availabilityZone : Str    -- lineItem/AvailabilityZone
  timeInterval : Str        -- identity/TimeInterval
  volumeType : Option Str   -- product/volumeType, when present
deriving DecidableEq

/-- `Row.region`. -/
def Row.region (r : Row) : Str :=
  match lookupStr REGION_NAMES r.location with
  | some reg => reg
  | none =>
    match r.availabilityZone.getLast? with
    | some c => if (str "1234567890").contains c then r.availabilityZone else str "noregion"
    | none => str "noregion"

/-- `Row.end_time`: `parse_datetime` of the part after the first `/`;
indexing `[1]` raises `IndexError` when the field has no `/`. -/
def Row.end_time (r : Row) : Except PyErr DateTime :=
  match (pySplit1 '/' r.timeInterval).2 with
  | some e => parse_datetime e
  | none => .error .indexError

/-- `Row.interval`: both halves are parsed (in order), then subtracted; a
missing `/` makes the two-name unpacking fail with `ValueError`. -/
def Row.interval (r : Row) : Except PyErr ℤ := do
  let p := pySplit1 '/' r.timeInterval
  let st ← parse_datetime p.1
  match p.2 with
  | some e => do
    let en ← parse_datetime e
    pure (en.toEpoch - st.toEpoch)
  | none => .error .valueError

/-- `Row.amount`. -/
def Row.amount (r : Row) : Except PyErr ℚ := pyFloat r.blendedCost

/-- The region-code test on `splut[0]` in `Row.usage_type`: exactly 4
characters, first two in {US, EU, AP, SA}, all-uppercase, 4th a digit. -/
def regionTokenGuard (head : Str) : Bool :=
  decide (head.length = 4) &&
  (decide (head.take 2 = str "US") || decide (head.take 2 = str "EU") ||
   decide (head.take 2 = str "AP") || decide (head.take 2 = str "SA")) &&
  pyIsUpper head &&
  (match head.get? 3 with | some c => c.isDigit | none => false)

/-- The value `csv_usage_type` computed at the top of `Row.usage_type`:
the raw usage type with a leading region token stripped; `splut[1]` raises
`IndexError` when the guard holds but there is no dash. -/
def csvUsageType (raw : Str) : Except PyErr Str :=
  let p := pySplit1 '-' raw
  if regionTokenGuard p.1 then
    match p.2 with
    | some rest => .ok rest
    | none => .error .indexError
  else .ok p.1

/-- `Row._usage_type_ec2_instance`; `none` models Python's `None`. -/
def Row.usage_type_ec2_instance (r : Row) : Option Str :=
  match (pySplit1 ':' r.usageTypeRaw).2 with
  | none => none
  | some inst => some (str "ec2-instance." ++ pyReplace '.' '-' inst)

/-- `Row._usage_type_rds_instance`. -/
def Row.usage_type_rds_instance (r : Row) : Option Str :=
  match (pySplit1 ':' r.usageTypeRaw).2 with
  | none => none
  | some inst => some (str "rds-instance." ++ pyReplace '.' '-' inst)

/-- `Row._usage_type_elasticache_instance`. -/
def Row.usage_type_elasticache_instance (r : Row) : Option Str :=
  match (pySplit1 ':' r.usageTypeRaw).2 with
  | none => none
  | some inst => some (str "elasticache-instance." ++ pyReplace '.' '-' inst)

/-- `Row._usage_type_ebs_storage`: the `EBS_TYPES` lookup raises `KeyError`
for a present-but-unknown volume type; an absent key yields `unknown`. -/
def Row.usage_type_ebs_storage (r : Row) : Except PyErr Str :=
  match r.volumeType with
  | some v =>
    match lookupStr EBS_TYPES v with
    | some t => .ok (str "ebs.storage." ++ t)
    | none => .error (.keyError v)
  | none => .ok (str "ebs.storage.unknown")

/-- `Row._usage_type_rds_storage`: substring search of the description
against `RDS_STORAGE_TYPES`, the last matching phrase winning; raises
`ValueError` when no phrase occurs. -/
def Row.usage_type_rds_storage (r : Row) : Except PyErr Str :=
  let vt := RDS_STORAGE_TYPES.foldl
    (fun acc pt => if infixW pt.1 r.lineItemDescription then pt.2 else acc) []
  if vt = [] then .error .valueError
  else .ok (str "rds.storage." ++ vt)

/-- `Row.usage_type`: the cascade of independent `if`s, a later matching
rule overwriting an earlier result. `some s` is a Python string result
(possibly empty), `none` is Python's `None`. -/
def Row.usage_type (r : Row) : Except PyErr (Option Str) := do
  let csv ← csvUsageType r.usageTypeRaw
  let u0 : Option Str := some []
  let u1 := if startsW (str "BoxUsage:") csv then r.usage_type_ec2_instance else u0
  let u2 := if csv = str "EBS:VolumeP-IOPS.piops" then some (str "ebs.piops") else u1
  let u3 ← if startsW (str "EBS:VolumeUsage") csv then do
      pure (some (← r.usage_type_ebs_storage))
    else pure u2
  let u4 := if csv = str "EBS:VolumeIOUsage" then some (str "ebs.iops") else u3
  let u5 := if csv = str "EBS:SnapshotUsage" then some (str "ebs.snapshot") else u4
  let u6 := if startsW (str "InstanceUsage:") csv || startsW (str "Multi-AZUsage:") csv then
      r.usage_type_rds_instance
    else u5
  let u7 := if csv = str "RDS:PIOPS" ∨ csv = str "RDS:Multi-AZ-PIOPS" then
      some (str "rds.piops")
    else u6
  let u8 ← if startsW (str "RDS:") csv && endsW (str "Storage") csv then do
      pure (some (← r.usage_type_rds_storage))
    else pure u7
  let u9 := if startsW (str "NodeUsage:") csv then r.usage_type_elasticache_instance else u8
  pure u9

/-! ## Generic lemmas about the string primitives -/

theorem okBind {α β : Type} (a : α) (f : α → Except PyErr β) :
    (Except.ok a >>= f) = f a := rfl

theorem errBind {α β : Type} (e : PyErr) (f : α → Except PyErr β) :
    ((Except.error e : Except PyErr α) >>= f) = Except.error e := rfl

theorem startsW_append (p t : Str) : startsW p (p ++ t) = true := by
  induction p with
  | nil => rfl
  | cons a as ih => simpa [startsW] using ih

theorem exists_of_startsW : ∀ {p s : Str}, startsW p s = true → ∃ t, s = p ++ t := by
  intro p
  induction p with
  | nil => exact fun {s} _ => ⟨s, rfl⟩
  | cons a as ih =>
    intro s h
    match s with
    | [] => simp [startsW] at h
    | c :: cs =>
      simp only [startsW] at h
      by_cases hac : a = c
      · subst hac
        rw [if_pos rfl] at h
        obtain ⟨t, ht⟩ := ih h
        exact ⟨t, by rw [ht]; rfl⟩
      · rw [if_neg hac] at h
        cases h

theorem noOverlap : ∀ {s p q : Str}, startsW p s = true → startsW q s = true →
    startsW p q = false → startsW q p = false → False := by
  intro s
  induction s with
  | nil =>
    intro p q hp hq h1 h2
    match p, q with
    | [], _ => simp [startsW] at h1
    | _ :: _, _ => simp [startsW] at hp
  | cons c cs ih =>
    intro p q hp hq h1 h2
    match p, q with
    | [], _ => simp [startsW] at h1
    | _ :: _, [] => simp [startsW] at h2
    | a :: as, b :: bs =>
      simp only [startsW] at hp hq h1 h2
      by_cases hac : a = c
      · subst hac
        rw [if_pos rfl] at hp
        by_cases hbc : b = a
        · subst hbc
          rw [if_pos rfl] at hq h1 h2
          exact ih hp hq h1 h2
        · rw [if_neg hbc] at hq
          cases hq
      · rw [if_neg hac] at hp
        cases hp

theorem startsW_false_of {p q s : Str} (hp : startsW p s = true)
    (h1 : startsW p q = false) (h2 : startsW q p = false) : startsW q s = false := by
  cases hq : startsW q s
  · rfl
  · exact absurd (noOverlap hp hq h1 h2) (fun h => h)

theorem ne_lit_of_startsW {p s l : Str} (hp : startsW p s = true)
    (h : startsW p l = false) : s ≠ l := by
  rintro rfl
  rw [hp] at h
  cases h

theorem pySplit1_append {sep : Char} : ∀ {a : Str}, sep ∉ a → ∀ b : Str,
    pySplit1 sep (a ++ b) = ((a ++ (pySplit1 sep b).1 : Str), (pySplit1 sep b).2) := by
  intro a
  induction a with
  | nil => intro _ b; rfl
  | cons x xs ih =>
    intro h b
    have hx : x ≠ sep := fun hh => h (hh ▸ List.mem_cons_self x xs)
    have hxs : sep ∉ xs := fun hh => h (List.mem_cons_of_mem x hh)
    simp only [List.cons_append, pySplit1, if_neg hx, List.append_eq, ih hxs b]

theorem pySplit1_sep {sep : Char} {a : Str} (h : sep ∉ a) (b : Str) :
    pySplit1 sep (a ++ sep :: b) = (a, some b) := by
  rw [pySplit1_append h]
  simp [pySplit1]

theorem pySplit1_no_sep {sep : Char} {a : Str} (h : sep ∉ a) :
    pySplit1 sep a = (a, none) := by
  have := pySplit1_append h []
  simpa [pySplit1] using this

/-! ## The classification cascade under a fixed matched rule -/

/-- When the stripped usage type starts with `EBS:VolumeUsage`, the cascade
reduces to the EBS-storage helper: no later rule can match. -/
theorem usage_type_eq_ebs (r : Row) (csv : Str)
    (hc : csvUsageType r.usageTypeRaw = .ok csv)
    (hp : startsW (str "EBS:VolumeUsage") csv = true) :
    r.usage_type = Except.map some r.usage_type_ebs_storage := by
  have hio : csv ≠ str "EBS:VolumeIOUsage" := ne_lit_of_startsW hp (by decide)
  have hsnap : csv ≠ str "EBS:SnapshotUsage" := ne_lit_of_startsW hp (by decide)
  have hinst : startsW (str "InstanceUsage:") csv = false :=
    startsW_false_of hp (by decide) (by decide)
  have hmaz : startsW (str "Multi-AZUsage:") csv = false :=
    startsW_false_of hp (by decide) (by decide)
  have hrds : startsW (str "RDS:") csv = false :=
    startsW_false_of hp (by decide) (by decide)
  have hnode : startsW (str "NodeUsage:") csv = false :=
    startsW_false_of hp (by decide) (by decide)
  have hrdseq : ¬(csv = str "RDS:PIOPS" ∨ csv = str "RDS:Multi-AZ-PIOPS") := by
    rintro (rfl | rfl) <;> exact absurd hp (by decide)
  simp only [Row.usage_type, hc, okBind, hp, if_true, if_neg hio, if_neg hsnap,
    hinst, hmaz, hrds, hnode, if_neg hrdseq, Bool.false_and, Bool.or_self,
    Bool.false_or, Bool.or_false, if_false]
  rcases hE : r.usage_type_ebs_storage with e | v <;>
    simp [hE, Except.map, errBind, okBind]

/-- When the stripped usage type starts with `RDS:` and ends with `Storage`,
the cascade reduces to the RDS-storage helper. -/
theorem usage_type_eq_rds (r : Row) (csv : Str)
    (hc : csvUsageType r.usageTypeRaw = .ok csv)
    (hpre : startsW (str "RDS:") csv = true)
    (hsuf : endsW (str "Storage") csv = true) :
    r.usage_type = Except.map some r.usage_type_rds_storage := by
  have hebs : startsW (str "EBS:VolumeUsage") csv = false :=
    startsW_false_of hpre (by decide) (by decide)
  have hnode : startsW (str "NodeUsage:") csv = false :=
    startsW_false_of hpre (by decide) (by decide)
  simp only [Row.usage_type, hc, okBind, hebs, hpre, hsuf, hnode,
    Bool.true_and, if_true, if_false, Bool.false_eq_true, okBind]
  rcases hE : r.usage_type_rds_storage with e | v <;>
    simp [hE, Except.map, errBind, okBind]

/-- Evaluation of the RDS-storage helper: the gp2 phrase is tested last, so
it wins when both phrases occur in the description. -/
theorem rds_helper_eval (r : Row) :
    r.usage_type_rds_storage =
      (if infixW (str "provisioned GP2 storage") r.lineItemDescription then
        .ok (str "rds.storage.gp2")
      else if infixW (str "Provisioned IOPS Storage") r.lineItemDescription then
        .ok (str "rds.storage.io1")
      else .error .valueError) := by
  unfold Row.usage_type_rds_storage
  by_cases h1 : infixW (str "Provisioned IOPS Storage") r.lineItemDescription = true <;>
  by_cases h2 : infixW (str "provisioned GP2 storage") r.lineItemDescription = true <;>
    simp_all [RDS_STORAGE_TYPES, List.foldl] <;> decide

/-! ## Claim C3: region resolution -/

/-- C3 (amended): a location found in `REGION_NAMES` maps through the table
("US West (Oregon)" to "us-west-2"); with an unknown location, a non-empty
availability zone ending in a digit — such as "us-east-1" — is returned
verbatim as the region; with an unknown location and an empty availability
zone the result is "noregion". -/
theorem region_resolution (r : Row) :
    (r.location = str "US West (Oregon)" → r.region = str "us-west-2") ∧
    (lookupStr REGION_NAMES r.location = none →
      r.availabilityZone = str "us-east-1" → r.region = str "us-east-1") ∧
    (lookupStr REGION_NAMES r.location = none →
      r.availabilityZone = [] → r.region = str "noregion") := by
  refine ⟨fun h1 => ?_, fun h2 h2' => ?_, fun h3 h3' => ?_⟩
  · unfold Row.region
    rw [h1]
    rfl
  · unfold Row.region
    rw [h2, h2']
    rfl
  · unfold Row.region
    rw [h3, h3']
    rfl

/-- Witness for C3 at concrete rows. -/
theorem region_resolution_witness :
    Row.region ⟨[], [], [], [], str "US West (Oregon)", [], [], none⟩ = str "us-west-2" ∧
    Row.region ⟨[], [], [], [], str "nowhere", str "us-east-1", [], none⟩ = str "us-east-1" ∧
    Row.region ⟨[], [], [], [], str "nowhere", [], [], none⟩ = str "noregion" :=
  ⟨(region_resolution _).1 rfl,
   (region_resolution _).2.1 (by decide) rfl,
   (region_resolution _).2.2 (by decide) rfl⟩

/-- Counterexample to C3 as stated: for a record with an unknown location
and availability zone "us-east-1a", `region()` returns "noregion", not
"us-east-1" — the zone ends in a letter, so the digit test fails. -/
theorem region_az_letter_counterexample :
    lookupStr REGION_NAMES (str "nowhere") = none ∧
    Row.region ⟨[], [], [], [], str "nowhere", str "us-east-1a", [], none⟩ = str "noregion" ∧
    Row.region ⟨[], [], [], [], str "nowhere", str "us-east-1a", [], none⟩ ≠ str "us-east-1" := by
  refine ⟨by decide, by decide, by decide⟩

/-! ## Claim C9: EBS storage classification -/

/-- C9: for a stripped usage type starting with `EBS:VolumeUsage`, the
volume type is resolved through `EBS_TYPES` (General Purpose ↦ gp2,
Magnetic ↦ standard, Provisioned IOPS ↦ io1, Unknown Storage ↦ unknown),
and an absent volume-type column yields `ebs.storage.unknown`. -/
theorem ebs_storage_classification (r : Row) (csv : Str)
    (hc : csvUsageType r.usageTypeRaw = .ok csv)
    (hp : startsW (str "EBS:VolumeUsage") csv = true) :
    (r.volumeType = some (str "General Purpose") →
      r.usage_type = .ok (some (str "ebs.storage.gp2"))) ∧
    (r.volumeType = some (str "Magnetic") →
      r.usage_type = .ok (some (str "ebs.storage.standard"))) ∧
    (r.volumeType = some (str "Provisioned IOPS") →
      r.usage_type = .ok (some (str "ebs.storage.io1"))) ∧
    (r.volumeType = some (str "Unknown Storage") →
      r.usage_type = .ok (some (str "ebs.storage.unknown"))) ∧
    (r.volumeType = none →
      r.usage_type = .ok (some (str "ebs.storage.unknown"))) := by
  rw [usage_type_eq_ebs r csv hc hp]
  refine ⟨fun h => ?_, fun h => ?_, fun h => ?_, fun h => ?_, fun h => ?_⟩ <;>
    simp [Row.usage_type_ebs_storage, h, Except.map] <;> decide

/-- Witness for C9: the concrete rows of the spec's test list. -/
theorem ebs_storage_classification_witness :
    Row.usage_type ⟨[], str "EBS:VolumeUsage", [], [], [], [], [], some (str "General Purpose")⟩
      = .ok (some (str "ebs.storage.gp2")) ∧
    Row.usage_type ⟨[], str "EBS:VolumeUsage", [], [], [], [], [], none⟩
      = .ok (some (str "ebs.storage.unknown")) :=
  ⟨(ebs_storage_classification _ (str "EBS:VolumeUsage") (by decide) (by decide)).1 rfl,
   (ebs_storage_classification _ (str "EBS:VolumeUsage") (by decide) (by decide)).2.2.2.2 rfl⟩

/-! ## Claim C10: present-but-unknown volume type raises KeyError -/

/-- C10: for a stripped usage type starting with `EBS:VolumeUsage`, when
`product/volumeType` is present with a value outside the `EBS_TYPES` table,
`usage_type()` raises `KeyError` instead of returning
`ebs.storage.unknown`; the fallback applies only to an absent key. -/
theorem ebs_storage_keyerror (r : Row) (csv v : Str)
    (hc : csvUsageType r.usageTypeRaw = .ok csv)
    (hp : startsW (str "EBS:VolumeUsage") csv = true)
    (hv : r.volumeType = some v)
    (h1 : v ≠ str "Magnetic") (h2 : v ≠ str "General Purpose")
    (h3 : v ≠ str "Provisioned IOPS") (h4 : v ≠ str "Unknown Storage") :
    r.usage_type = .error (.keyError v) ∧
    r.usage_type ≠ .ok (some (str "ebs.storage.unknown")) := by
  have hlook : lookupStr EBS_TYPES v = none := by
    simp only [EBS_TYPES, lookupStr]
    rw [if_neg (fun hh => h1 hh.symm), if_neg (fun hh => h2 hh.symm),
      if_neg (fun hh => h3 hh.symm), if_neg (fun hh => h4 hh.symm)]
  rw [usage_type_eq_ebs r csv hc hp]
  constructor
  · simp [Row.usage_type_ebs_storage, hv, hlook, Except.map]
  · simp [Row.usage_type_ebs_storage, hv, hlook, Except.map]

/-- Witness for C10 with the empty string as the present value. -/
theorem ebs_storage_keyerror_witness :
    Row.usage_type ⟨[], str "EBS:VolumeUsage", [], [], [], [], [], some []⟩
      = .error (.keyError []) :=
  (ebs_storage_keyerror _ (str "EBS:VolumeUsage") [] (by decide) (by decide) rfl
    (by decide) (by decide) (by decide) (by decide)).1

/-! ## Claim C4: RDS storage classification -/

/-- C4 (amended): for a stripped usage type starting with `RDS:` and
ending with `Storage`, classification raises (`ValueError`, the spec's
ClassificationError) iff the description contains neither known phrase; a
description containing "provisioned GP2 storage" yields
`rds.storage.gp2` (that phrase is tested last and wins even when the IOPS
phrase is also present); a description containing
"Provisioned IOPS Storage" but not the GP2 phrase yields
`rds.storage.io1`. -/
theorem rds_storage_classification (r : Row) (csv : Str)
    (hc : csvUsageType r.usageTypeRaw = .ok csv)
    (hpre : startsW (str "RDS:") csv = true)
    (hsuf : endsW (str "Storage") csv = true) :
    (r.usage_type = .error .valueError ↔
      (infixW (str "Provisioned IOPS Storage") r.lineItemDescription = false ∧
       infixW (str "provisioned GP2 storage") r.lineItemDescription = false)) ∧
    (infixW (str "provisioned GP2 storage") r.lineItemDescription = true →
      r.usage_type = .ok (some (str "rds.storage.gp2"))) ∧
    (infixW (str "Provisioned IOPS Storage") r.lineItemDescription = true →
     infixW (str "provisioned GP2 storage") r.lineItemDescription = false →
      r.usage_type = .ok (some (str "rds.storage.io1"))) := by
  rw [usage_type_eq_rds r csv hc hpre hsuf, rds_helper_eval r]
  by_cases h1 : infixW (str "Provisioned IOPS Storage") r.lineItemDescription = true <;>
  by_cases h2 : infixW (str "provisioned GP2 storage") r.lineItemDescription = true <;>
    simp_all [Except.map]

/-- Witness for C4: a GP2-only and a phraseless description. -/
theorem rds_storage_classification_witness :
    Row.usage_type ⟨[], str "RDS:GP2Storage", str "x provisioned GP2 storage y", [], [], [], [], none⟩
      = .ok (some (str "rds.storage.gp2")) ∧
    Row.usage_type ⟨[], str "RDS:GP2Storage", str "something else", [], [], [], [], none⟩
      = .error .valueError :=
  ⟨(rds_storage_classification _ (str "RDS:GP2Storage") (by decide) (by decide)
      (by decide)).2.1 (by decide),
   ((rds_storage_classification _ (str "RDS:GP2Storage") (by decide) (by decide)
      (by decide)).1).2 ⟨by decide, by decide⟩⟩

/-- Counterexample to C4 as stated: a description containing both phrases
is classified `rds.storage.gp2`, not `rds.storage.io1`, although it does
contain "Provisioned IOPS Storage" — the claim's io1 clause fails. -/
theorem rds_storage_both_phrases_counterexample :
    csvUsageType (str "RDS:Storage") = .ok (str "RDS:Storage") ∧
    startsW (str "RDS:") (str "RDS:Storage") = true ∧
    endsW (str "Storage") (str "RDS:Storage") = true ∧
    infixW (str "Provisioned IOPS Storage")
      (str "Provisioned IOPS Storage provisioned GP2 storage") = true ∧
    Row.usage_type ⟨[], str "RDS:Storage",
        str "Provisioned IOPS Storage provisioned GP2 storage", [], [], [], [], none⟩
      = .ok (some (str "rds.storage.gp2")) ∧
    Row.usage_type ⟨[], str "RDS:Storage",
        str "Provisioned IOPS Storage provisioned GP2 storage", [], [], [], [], none⟩
      ≠ .ok (some (str "rds.storage.io1")) := by
  refine ⟨by decide, by decide, by decide, by decide, by decide, by decide⟩

/-! ## Claim C8: EC2 instance classification -/

/-- When the stripped usage type starts with `BoxUsage:`, the cascade
reduces to the EC2-instance helper: no later rule can match. -/
theorem usage_type_eq_box (r : Row) (csv : Str)
    (hc : csvUsageType r.usageTypeRaw = .ok csv)
    (hp : startsW (str "BoxUsage:") csv = true) :
    r.usage_type = .ok r.usage_type_ec2_instance := by
  have heq2 : csv ≠ str "EBS:VolumeP-IOPS.piops" := ne_lit_of_startsW hp (by decide)
  have hio : csv ≠ str "EBS:VolumeIOUsage" := ne_lit_of_startsW hp (by decide)
  have hsnap : csv ≠ str "EBS:SnapshotUsage" := ne_lit_of_startsW hp (by decide)
  have hebs : startsW (str "EBS:VolumeUsage") csv = false :=
    startsW_false_of hp (by decide) (by decide)
  have hinst : startsW (str "InstanceUsage:") csv = false :=
    startsW_false_of hp (by decide) (by decide)
  have hmaz : startsW (str "Multi-AZUsage:") csv = false :=
    startsW_false_of hp (by decide) (by decide)
  have hrds : startsW (str "RDS:") csv = false :=
    startsW_false_of hp (by decide) (by decide)
  have hnode : startsW (str "NodeUsage:") csv = false :=
    startsW_false_of hp (by decide) (by decide)
  have hrdseq : ¬(csv = str "RDS:PIOPS" ∨ csv = str "RDS:Multi-AZ-PIOPS") := by
    rintro (rfl | rfl) <;> exact absurd hp (by decide)
  simp [Row.usage_type, hc, okBind, hp, if_neg heq2, if_neg hio, if_neg hsnap,
    hebs, hinst, hmaz, hrds, hnode, if_neg hrdseq]
  rfl

/-- C8: the two reference classifications, and the general shape — a usage
type `BoxUsage:<type>` classifies to `ec2-instance.<type>` with dots
turned to dashes, also under a leading region token (4 characters,
uppercase, first two in {US, EU, AP, SA}, 4th a digit) stripped with its
separator. -/
theorem ec2_instance_classification :
    (Row.usage_type ⟨[], str "BoxUsage:c3.2xlarge", [], [], [], [], [], none⟩
       = .ok (some (str "ec2-instance.c3-2xlarge")) ∧
     Row.usage_type ⟨[], str "APN1-BoxUsage:m4.2xlarge", [], [], [], [], [], none⟩
       = .ok (some (str "ec2-instance.m4-2xlarge"))) ∧
    (∀ (r : Row) (t : Str), r.usageTypeRaw = str "BoxUsage:" ++ t →
      r.usage_type = .ok (some (str "ec2-instance." ++ pyReplace '.' '-' t))) ∧
    (∀ (r : Row) (tok t : Str), r.usageTypeRaw = tok ++ '-' :: (str "BoxUsage:" ++ t) →
      regionTokenGuard tok = true → '-' ∉ tok → ':' ∉ tok →
      r.usage_type = .ok (some (str "ec2-instance." ++ pyReplace '.' '-' t))) := by
  refine ⟨⟨by decide, by decide⟩, fun r t hraw => ?_, fun r tok t hraw hg hd hcl => ?_⟩
  · have hsp : pySplit1 '-' (str "BoxUsage:" ++ t)
        = ((str "BoxUsage:" ++ (pySplit1 '-' t).1 : Str), (pySplit1 '-' t).2) :=
      pySplit1_append (by decide) t
    have hguard : regionTokenGuard (str "BoxUsage:" ++ (pySplit1 '-' t).1) = false := by
      have h4 : decide ((str "BoxUsage:" ++ (pySplit1 '-' t).1).length = 4) = false :=
        decide_eq_false (by simp [str])
      unfold regionTokenGuard
      rw [h4, Bool.false_and, Bool.false_and, Bool.false_and]
    have hc : csvUsageType r.usageTypeRaw
        = .ok (str "BoxUsage:" ++ (pySplit1 '-' t).1) := by
      rw [hraw]
      unfold csvUsageType
      rw [hsp]
      simp [hguard]
    rw [usage_type_eq_box r _ hc (startsW_append _ _)]
    have hhelper : r.usage_type_ec2_instance
        = some (str "ec2-instance." ++ pyReplace '.' '-' t) := by
      unfold Row.usage_type_ec2_instance
      rw [hraw, show (str "BoxUsage:" ++ t : Str) = str "BoxUsage" ++ ':' :: t from rfl,
        pySplit1_sep (by decide) t]
    rw [hhelper]
  · have hsp : pySplit1 '-' r.usageTypeRaw = (tok, some (str "BoxUsage:" ++ t)) := by
      rw [hraw]
      exact pySplit1_sep hd _
    have hc : csvUsageType r.usageTypeRaw = .ok (str "BoxUsage:" ++ t) := by
      unfold csvUsageType
      rw [hsp]
      simp [hg]
    rw [usage_type_eq_box r _ hc (startsW_append _ _)]
    have hmem : ':' ∉ (tok ++ '-' :: str "BoxUsage" : Str) := by
      intro hm
      rcases List.mem_append.mp hm with h | h
      · exact hcl h
      · rcases List.mem_cons.mp h with h | h
        · cases h
        · exact absurd h (by decide)
    have hassoc : (tok ++ '-' :: (str "BoxUsage:" ++ t) : Str)
        = (tok ++ '-' :: str "BoxUsage") ++ ':' :: t := by
      simp only [List.cons_append, List.append_assoc]
      rfl
    have hhelper : r.usage_type_ec2_instance
        = some (str "ec2-instance." ++ pyReplace '.' '-' t) := by
      unfold Row.usage_type_ec2_instance
      rw [hraw, hassoc, pySplit1_sep hmem t]
    rw [hhelper]

/-- Witness for C8's general clauses at the reference inputs. -/
theorem ec2_instance_classification_witness :
    Row.usage_type ⟨[], str "APN1-" ++ (str "BoxUsage:" ++ str "m4.2xlarge"), [], [], [], [], [], none⟩
      = .ok (some (str "ec2-instance." ++ pyReplace '.' '-' (str "m4.2xlarge"))) :=
  ec2_instance_classification.2.2
    ⟨[], str "APN1-" ++ (str "BoxUsage:" ++ str "m4.2xlarge"), [], [], [], [], [], none⟩
    (str "APN1") (str "m4.2xlarge") (by decide) (by decide) (by decide) (by decide)

/-! ## The metric formatter -/

/-- Decimal digits of a natural number, most significant first; the fuel
argument makes the recursion structural (any `fuel > n` gives the same
result). -/
def natDigitsAux : ℕ → ℕ → Str
  | 0, _ => []
  | fuel + 1, n =>
    if n < 10 then [Char.ofNat (48 + n)]
    else natDigitsAux fuel (n / 10) ++ [Char.ofNat (48 + n % 10)]

def natDigits (n : ℕ) : Str := natDigitsAux (n + 1) n

def padZeros (k : ℕ) (s : Str) : Str := List.replicate (k - s.length) '0' ++ s

def intToStr (z : ℤ) : Str :=
  if z < 0 then '-' :: natDigits z.natAbs else natDigits z.natAbs

/-- `⌊|q| * 10^6 + 1/2⌋` computed on the normalised fraction of `q` with
plain natural-number arithmetic. -/
def scaled6 (q : ℚ) : ℕ := (2000000 * q.num.natAbs + q.den) / (2 * q.den)

/-- Python `'{:04f}'` applied to a float modelled as a rational: fixed-point
with the default precision 6, sign, and a minimum width of 4 padded with
zeros (which never fires: the core already has at least 8 characters).
The tie-break of binary floats is modelled as round-half-up on the
magnitude; no claim depends on tie behaviour. -/
def fmtCore (q : ℚ) : Str :=
  (if q.num < 0 then ['-'] else []) ++ natDigits (scaled6 q / 1000000)
    ++ '.' :: padZeros 6 (natDigits (scaled6 q % 1000000))

def fmt04f (q : ℚ) : Str :=
  List.replicate (4 - (fmtCore q).length) '0' ++ fmtCore q

/-- `MetricFormatter`: the pieces prepended to every metric name. -/
structure MetricFormatter where
  initial_pieces : List (Option Str)

/-- `MetricFormatter.__init__`: `os.getenv` yields `none` when the
variable is unset, and `None != ""` holds in Python, so the `awsbill`
default applies only when the variable is set to the empty string. -/
def MetricFormatter.init (env : Option Str) : MetricFormatter :=
  if env ≠ some [] then ⟨[env]⟩ else ⟨[some (str "awsbill")]⟩

/-- Python `'.'.join`; joining a `None` element raises `TypeError`. -/
def joinDot : List (Option Str) → Except PyErr Str
  | [] => .ok []
  | [some s] => .ok s
  | some s :: rest => do pure (s ++ '.' :: (← joinDot rest))
  | none :: _ => .error .typeError

/-- `MetricFormatter.format`: `'{0} {1:04f} {2}\n'` over the joined metric
name, the value, and `timestamp.strftime('%s')` (epoch seconds, the
process running in UTC). -/
def MetricFormatter.format (f : MetricFormatter) (ts_id : Str) (timestamp : DateTime)
    (value : ℚ) : Except PyErr Str := do
  let name ← joinDot (f.initial_pieces ++ [some ts_id])
  pure (name ++ ' ' :: (fmt04f value ++ ' ' :: (intToStr timestamp.toEpoch ++ ['\n'])))

/-- The number of characters after the last `'.'` of a string. -/
def fracCount (s : Str) : ℕ := (s.reverse.takeWhile (fun c => c ≠ '.')).length

theorem natDigitsAux_digits : ∀ fuel n, n < fuel →
    ∀ c ∈ natDigitsAux fuel n, c.isDigit = true := by
  intro fuel
  induction fuel with
  | zero => intro n h; omega
  | succ f ih =>
    intro n h c hc
    rw [natDigitsAux] at hc
    by_cases h10 : n < 10
    · rw [if_pos h10] at hc
      simp only [List.mem_singleton] at hc
      subst hc
      interval_cases n <;> decide
    · rw [if_neg h10] at hc
      rcases List.mem_append.mp hc with hm | hm
      · exact ih (n / 10) (by omega) c hm
      · simp only [List.mem_singleton] at hm
        subst hm
        have : n % 10 < 10 := Nat.mod_lt _ (by omega)
        interval_cases hh : n % 10 <;> simp_all

theorem natDigits_digits (n : ℕ) : ∀ c ∈ natDigits n, c.isDigit = true :=
  natDigitsAux_digits (n + 1) n (Nat.lt_succ_self n)

theorem natDigitsAux_len : ∀ fuel k n, n < fuel → n < 10 ^ k → 1 ≤ k →
    (natDigitsAux fuel n).length ≤ k := by
  intro fuel
  induction fuel with
  | zero => intro k n h; omega
  | succ f ih =>
    intro k n h hk h1
    rw [natDigitsAux]
    by_cases h10 : n < 10
    · rw [if_pos h10]
      simpa using h1
    · rw [if_neg h10]
      rw [List.length_append]
      have hk2 : 2 ≤ k := by
        by_contra hlt
        have : k = 1 := by omega
        subst this
        simp at hk
        omega
      have hdiv : n / 10 < 10 ^ (k - 1) := by
        have : n < 10 ^ (k - 1) * 10 := by
          have : 10 ^ (k - 1) * 10 = 10 ^ k := by
            rw [mul_comm, ← pow_succ']
            congr 1
            omega
          omega
        omega
      have := ih (k - 1) (n / 10) (by omega) hdiv (by omega)
      simp only [List.length_singleton]
      omega

theorem natDigits_len {k n : ℕ} (hk : n < 10 ^ k) (h1 : 1 ≤ k) :
    (natDigits n).length ≤ k :=
  natDigitsAux_len (n + 1) k n (Nat.lt_succ_self n) hk h1

theorem takeWhile_all_append (p : Char → Bool) :
    ∀ a b : Str, (∀ c ∈ a, p c = true) →
      List.takeWhile p (a ++ b) = a ++ List.takeWhile p b := by
  intro a
  induction a with
  | nil => intro b _; rfl
  | cons x xs ih =>
    intro b h
    have hx : p x = true := h x (List.mem_cons_self x xs)
    simp only [List.cons_append, List.takeWhile_cons, hx, if_true]
    rw [ih b (fun c hc => h c (List.mem_cons_of_mem x hc))]

theorem fracCount_fmt04f (q : ℚ) :
    fracCount (fmt04f q) = 6 ∧ '.' ∈ fmt04f q := by
  set n : ℕ := scaled6 q with hn
  have hfrac : n % 1000000 < 10 ^ 6 := Nat.mod_lt _ (by norm_num)
  have hlen : (natDigits (n % 1000000)).length ≤ 6 := natDigits_len hfrac (by norm_num)
  have hpadlen : (padZeros 6 (natDigits (n % 1000000))).length = 6 := by
    unfold padZeros
    rw [List.length_append, List.length_replicate]
    omega
  have hpaddig : ∀ c ∈ padZeros 6 (natDigits (n % 1000000)), (c ≠ '.' : Bool) = true := by
    intro c hc
    rcases List.mem_append.mp hc with hm | hm
    · have := List.eq_of_mem_replicate hm
      subst this
      decide
    · have := natDigits_digits _ c hm
      simp only [decide_eq_true_eq]
      intro hdot
      subst hdot
      exact absurd this (by decide)
  have hcorelen : 8 ≤ (fmtCore q).length := by
    have h1 : 1 ≤ (natDigits (n / 1000000)).length := by
      unfold natDigits natDigitsAux
      split <;> simp
    unfold fmtCore
    rw [← hn]
    simp only [List.length_append, List.length_cons, hpadlen]
    omega
  have hcore : fmt04f q = fmtCore q := by
    unfold fmt04f
    rw [show (4 - (fmtCore q).length) = 0 by omega]
    rfl
  have hrev : (fmtCore q).reverse
      = (padZeros 6 (natDigits (n % 1000000))).reverse
        ++ '.' :: ((natDigits (n / 1000000)).reverse
          ++ (if q.num < 0 then (['-'] : Str) else []).reverse) := by
    unfold fmtCore
    rw [← hn]
    simp [List.reverse_append]
  constructor
  · unfold fracCount
    rw [hcore, hrev]
    rw [takeWhile_all_append _ _ _ (by
      intro c hc
      exact hpaddig c (List.mem_reverse.mp hc))]
    simp [List.takeWhile_cons, hpadlen]
  · rw [hcore]
    unfold fmtCore
    simp

/-! ## Claim C2: output line format -/

/-- C2 (amended): with the prefix environment variable set to a non-empty
string `p`, each formatted line is
`<p>.<metric-name> <value> <epoch-seconds>\n`, and the value is rendered
in fixed-point with exactly 6 fractional digits (the format spec `04f`
sets a minimum width of 4, not a precision of 4; the precision is the
default 6). -/
theorem metric_line_format (p ts_id : Str) (t : DateTime) (v : ℚ) (hp : p ≠ []) :
    (MetricFormatter.init (some p)).format ts_id t v
      = .ok ((p ++ '.' :: ts_id) ++ ' ' :: (fmt04f v ++ ' ' :: (intToStr t.toEpoch ++ ['\n']))) ∧
    fracCount (fmt04f v) = 6 ∧ '.' ∈ fmt04f v := by
  refine ⟨?_, (fracCount_fmt04f v).1, (fracCount_fmt04f v).2⟩
  unfold MetricFormatter.init
  rw [if_pos (fun hh => hp (Option.some.inj hh))]
  show joinDot ([some p] ++ [some ts_id]) >>= _ = _
  simp [joinDot, okBind]

/-- Witness for C2 at a concrete prefix, metric, timestamp and value. -/
theorem metric_line_format_witness :
    (MetricFormatter.init (some (str "awsbill"))).format (str "x") ⟨1970, 1, 1, 0, 0, 0⟩ (2 : ℚ)
      = .ok ((str "awsbill" ++ '.' :: str "x")
          ++ ' ' :: (fmt04f (2 : ℚ) ++ ' ' :: (intToStr (DateTime.toEpoch ⟨1970, 1, 1, 0, 0, 0⟩) ++ ['\n']))) ∧
    fracCount (fmt04f (2 : ℚ)) = 6 ∧ '.' ∈ fmt04f (2 : ℚ) :=
  metric_line_format (str "awsbill") (str "x") ⟨1970, 1, 1, 0, 0, 0⟩ (2 : ℚ) (by decide)

/-- Counterexample to C2 as stated: the value 2.0 is rendered as
`2.000000` — six fractional digits after the point, not four. -/
theorem metric_line_four_digits_counterexample :
    (MetricFormatter.init (some (str "awsbill"))).format (str "x") ⟨1970, 1, 1, 0, 0, 0⟩ (2 : ℚ)
      = .ok (str "awsbill.x 2.000000 0\n") ∧
    fracCount (str "2.000000") = 6 ∧ fracCount (str "2.000000") ≠ 4 := by
  refine ⟨by decide, by decide, by decide⟩

/-! ## Timeseries patterns and the metric ledger -/

/-- The closed variant set of `TimeseriesPattern` subclasses. -/
inductive TimeseriesPattern where
  | tsInstanceType
  | tsEbsStorage
  | tsEbsPiops
  | tsEbsIops
  | tsEbsSnapshot
  | tsRdsInstanceType
  | tsRdsStorage
  | tsRdsPiops
  | tsElasticacheInstanceType
  | tsRegionTotal
deriving DecidableEq

/-- `'.'.join((a, b))`. -/
def join2 (a b : Str) : Str := a ++ '.' :: b

/-- The `match` method of each pattern. `TsInstanceType` tests the
truthiness of `usage_type()` first (`None` and `""` are falsy, and the
`else: pass` branch returns `None`, also falsy); the other
`startswith`-based patterns call `.startswith` directly, which raises
`AttributeError` when `usage_type()` returned `None`; the equality-based
patterns compare with `==`, which is simply `False` against `None`. -/
def TimeseriesPattern.matches : TimeseriesPattern → Row → Except PyErr Bool
  | .tsInstanceType, r => do
    match (← r.usage_type) with
    | some s => if s ≠ [] then pure (startsW (str "ec2-instance.") s) else pure false
    | none => pure false
  | .tsEbsStorage, r => do
    match (← r.usage_type) with
    | some s => pure (startsW (str "ebs.storage.") s)
    | none => .error .attributeError
  | .tsEbsPiops, r => do
    pure (decide ((← r.usage_type) = some (str "ebs.piops")))
  | .tsEbsIops, r => do
    pure (decide ((← r.usage_type) = some (str "ebs.iops")))
  | .tsEbsSnapshot, r => do
    pure (decide ((← r.usage_type) = some (str "ebs.snapshot")))
  | .tsRdsInstanceType, r => do
    match (← r.usage_type) with
    | some s => pure (startsW (str "rds-instance.") s)
    | none => .error .attributeError
  | .tsRdsStorage, r => do
    match (← r.usage_type) with
    | some s => pure (startsW (str "rds.storage.") s)
    | none => .error .attributeError
  | .tsRdsPiops, r => do
    pure (decide ((← r.usage_type) = some (str "rds.piops")))
  | .tsElasticacheInstanceType, r => do
    match (← r.usage_type) with
    | some s => pure (startsW (str "elasticache-instance.") s)
    | none => .error .attributeError
  | .tsRegionTotal, _ => pure true

/-- The `metric_names` method of each pattern; joining `None` into a
metric name would raise `TypeError`. -/
def TimeseriesPattern.metric_names : TimeseriesPattern → Row → Except PyErr (List Str)
  | .tsInstanceType, r => do
    match (← r.usage_type) with
    | some s => pure [join2 r.region s]
    | none => .error .typeError
  | .tsEbsStorage, r => do
    match (← r.usage_type) with
    | some s => pure [join2 r.region s]
    | none => .error .typeError
  | .tsEbsPiops, r => pure [join2 r.region (str "ebs.piops")]
  | .tsEbsIops, r => pure [join2 r.region (str "ebs.iops")]
  | .tsEbsSnapshot, r => pure [join2 r.region (str "ebs.snapshot")]
  | .tsRdsInstanceType, r => do
    match (← r.usage_type) with
    | some s => pure [join2 r.region s]
    | none => .error .typeError
  | .tsRdsStorage, r => do
    match (← r.usage_type) with
    | some s => pure [join2 r.region s]
    | none => .error .typeError
  | .tsRdsPiops, r => pure [join2 r.region (str "rds.piops")]
  | .tsElasticacheInstanceType, r => do
    match (← r.usage_type) with
    | some s => pure [join2 r.region s]
    | none => .error .typeError
  | .tsRegionTotal, r => pure [str "total-cost." ++ r.region]

/-- `MetricLedger`: the pattern list and the `defaultdict(float)`-of-
`defaultdict(float)` timeseries map, modelled as a total function with
default 0. -/
structure MetricLedger where
  patterns : List TimeseriesPattern
  timeseries : Str → DateTime → ℚ

/-- `self._timeseries[metric][end_time] += amount`. -/
def tsUpdate (f : Str → DateTime → ℚ) (n : Str) (t : DateTime) (a : ℚ) :
    Str → DateTime → ℚ :=
  fun n' t' => if n' = n ∧ t' = t then f n' t' + a else f n' t'

/-- The body of the pattern loop in `MetricLedger.process`. -/
def patStep (r : Row) (acc : MetricLedger) (p : TimeseriesPattern) :
    Except PyErr MetricLedger := do
  if (← p.matches r) then
    (← p.metric_names r).foldlM
      (fun acc2 n => do
        let et ← r.end_time
        let a ← r.amount
        pure (MetricLedger.mk acc2.patterns (tsUpdate acc2.timeseries n et a)))
      acc
  else pure acc

/-- `MetricLedger.process`: skip non-`Usage` rows, skip non-hourly rows,
then accumulate through every matching pattern. Python mutates the ledger
in place; returning it is equivalent because every fallible call in the
loop is deterministic and, for the fixed pattern set, first evaluated
before the first mutation (`TsInstanceType.match` calls `usage_type()`
unconditionally, and `end_time`/`amount` are evaluated before the first
`+=`), so an exception can only escape with the ledger unchanged. -/
def MetricLedger.process (L : MetricLedger) (r : Row) : Except PyErr MetricLedger :=
  if r.lineItemType ≠ str "Usage" then pure L
  else do
    let i ← r.interval
    if i ≠ 3600 then pure L
    else L.patterns.foldlM (patStep r) L

/-- `new_metric_ledger()`: the fixed pattern list and empty timeseries. -/
def new_metric_ledger : MetricLedger :=
  ⟨[.tsInstanceType, .tsEbsStorage, .tsEbsPiops, .tsEbsIops, .tsEbsSnapshot,
    .tsRdsInstanceType, .tsRdsStorage, .tsRdsPiops, .tsElasticacheInstanceType,
    .tsRegionTotal], fun _ _ => 0⟩

/-- The fixed pattern list of `new_metric_ledger`. -/
def stdPatterns : List TimeseriesPattern := new_metric_ledger.patterns

/-- The per-record loop of `generate_metrics` restricted to the ledger. -/
def processAll (L : MetricLedger) (rows : List Row) : Except PyErr MetricLedger :=
  rows.foldlM MetricLedger.process L

/-! ## Claim C7: frame property of `process` -/

/-- C7: a record whose `lineItem/LineItemType` is not `"Usage"`, or whose
`interval()` is defined and differs from 3600 seconds, leaves the ledger
untouched: `process` returns it unchanged, so every metric-name/timestamp
bucket keeps its value. -/
theorem process_skips (L : MetricLedger) (r : Row) :
    (r.lineItemType ≠ str "Usage" → L.process r = .ok L) ∧
    (∀ i : ℤ, r.interval = .ok i → i ≠ 3600 → L.process r = .ok L) := by
  constructor
  · intro h
    unfold MetricLedger.process
    rw [if_pos h]
    rfl
  · intro i hi h36
    unfold MetricLedger.process
    by_cases ht : r.lineItemType ≠ str "Usage"
    · rw [if_pos ht]
      rfl
    · rw [if_neg ht, hi, okBind, if_pos h36]
      rfl

/-- Witness for C7: a `Tax` row and a two-hour `Usage` row. -/
theorem process_skips_witness :
    MetricLedger.process new_metric_ledger ⟨str "Tax", [], [], [], [], [], [], none⟩
      = .ok new_metric_ledger ∧
    MetricLedger.process new_metric_ledger
      ⟨str "Usage", [], [], [], [], [],
        str "2016-04-04T02:00:00Z/2016-04-04T04:00:00Z", none⟩
      = .ok new_metric_ledger :=
  ⟨(process_skips new_metric_ledger _).1 (by decide),
   (process_skips new_metric_ledger _).2 7200 (by decide) (by decide)⟩

/-! ## Claim C1: the ledger invariant -/

/-- `n` occurs in a successfully computed metric-name list. -/
def okMem (n : Str) : Except PyErr (List Str) → Prop
  | .ok names => n ∈ names
  | .error _ => False

instance (n : Str) : (e : Except PyErr (List Str)) → Decidable (okMem n e)
  | .ok names => inferInstanceAs (Decidable (n ∈ names))
  | .error _ => isFalse (fun h => h)

/-- The claim's condition on a record: `lineItem/LineItemType` is `Usage`,
`interval()` is 3600 s, `end_time()` is `ts`, and some pattern of the
fresh ledger's pattern set matches the record with `n` among its metric
names. -/
def rowContributes (r : Row) (n : Str) (ts : DateTime) : Prop :=
  r.lineItemType = str "Usage" ∧ r.interval = .ok 3600 ∧ r.end_time = .ok ts ∧
  ∃ p ∈ stdPatterns, p.matches r = .ok true ∧ okMem n (p.metric_names r)

instance (r : Row) (n : Str) (ts : DateTime) : Decidable (rowContributes r n ts) := by
  unfold rowContributes
  infer_instance

/-- The record's `amount()`, defaulting to 0 when the cost fails to parse
(contributing records of a successful run always parse). -/
def amountD (r : Row) : ℚ := match r.amount with | .ok a => a | .error _ => 0

/-- Sum of `amount()` over exactly the contributing records. -/
def claimSum (rows : List Row) (n : Str) (ts : DateTime) : ℚ :=
  ((rows.filter (fun r => decide (rowContributes r n ts))).map amountD).sum

/-- The conditional single-bucket update a matching pattern performs. -/
def condUpd (c : Bool) (nm : Str) (et : DateTime) (a : ℚ) (M : MetricLedger) :
    MetricLedger :=
  if c then MetricLedger.mk M.patterns (tsUpdate M.timeseries nm et a) else M

theorem condUpd_patterns (c nm et a M) : (condUpd c nm et a M).patterns = M.patterns := by
  unfold condUpd
  split <;> rfl

theorem condUpd_value (c : Bool) (nm : Str) (et : DateTime) (a : ℚ) (M : MetricLedger)
    (n : Str) (ts : DateTime) :
    (condUpd c nm et a M).timeseries n ts
      = M.timeseries n ts + (if c = true ∧ n = nm ∧ ts = et then a else 0) := by
  unfold condUpd tsUpdate
  cases c
  · simp
  · simp only [if_true]
    by_cases hh : n = nm ∧ ts = et
    · simp [hh]
    · simp [hh]

/-- A fold of pattern steps that each reduce to a conditional update. -/
theorem condFold (r : Row) (cond : TimeseriesPattern → Bool) (nm : TimeseriesPattern → Str)
    (et : DateTime) (a : ℚ) :
    ∀ (ps : List TimeseriesPattern) (acc : MetricLedger),
    (∀ p ∈ ps, ∀ M, patStep r M p = .ok (condUpd (cond p) (nm p) et a M)) →
    List.foldlM (patStep r) acc ps
      = .ok (ps.foldl (fun M p => condUpd (cond p) (nm p) et a M) acc) := by
  intro ps
  induction ps with
  | nil => intro acc _; rfl
  | cons p rest ih =>
    intro acc hsteps
    have h1 := hsteps p (List.mem_cons_self p rest) acc
    simp only [List.foldlM, h1, okBind, List.foldl]
    exact ih _ (fun q hq M => hsteps q (List.mem_cons_of_mem p hq) M)

theorem pureOk {α : Type} (x : α) : (pure x : Except PyErr α) = .ok x := rfl

/-- The match condition of each pattern, as a function of the (string)
usage type of the row. -/
def specCond (s : Str) : TimeseriesPattern → Bool
  | .tsInstanceType => startsW (str "ec2-instance.") s
  | .tsEbsStorage => startsW (str "ebs.storage.") s
  | .tsEbsPiops => decide (s = str "ebs.piops")
  | .tsEbsIops => decide (s = str "ebs.iops")
  | .tsEbsSnapshot => decide (s = str "ebs.snapshot")
  | .tsRdsInstanceType => startsW (str "rds-instance.") s
  | .tsRdsStorage => startsW (str "rds.storage.") s
  | .tsRdsPiops => decide (s = str "rds.piops")
  | .tsElasticacheInstanceType => startsW (str "elasticache-instance.") s
  | .tsRegionTotal => true

/-- The single metric name of each pattern (meaningful when it matched). -/
def specName (r : Row) (s : Str) : TimeseriesPattern → Str
  | .tsEbsPiops => join2 r.region (str "ebs.piops")
  | .tsEbsIops => join2 r.region (str "ebs.iops")
  | .tsEbsSnapshot => join2 r.region (str "ebs.snapshot")
  | .tsRdsPiops => join2 r.region (str "rds.piops")
  | .tsRegionTotal => str "total-cost." ++ r.region
  | _ => join2 r.region s

/-- With a string usage type and parsable end time and amount, every
pattern step is the conditional update of its own metric bucket. -/
theorem patStep_eval (r : Row) (s : Str) (et : DateTime) (a : ℚ)
    (hu : r.usage_type = .ok (some s)) (het : r.end_time = .ok et)
    (ha : r.amount = .ok a) :
    ∀ (p : TimeseriesPattern) (M : MetricLedger),
    patStep r M p = .ok (condUpd (specCond s p) (specName r s p) et a M) := by
  intro p M
  cases p
  case tsInstanceType =>
    rcases s with _ | ⟨c, cs⟩
    · simp [patStep, TimeseriesPattern.matches, hu, okBind, specCond, specName,
        condUpd, startsW, pureOk]
    · cases hc : startsW (str "ec2-instance.") (c :: cs) <;>
        simp [patStep, TimeseriesPattern.matches, TimeseriesPattern.metric_names, hu,
          okBind, hc, specCond, specName, condUpd, het, ha, List.foldlM, pureOk]
  case tsEbsStorage =>
    cases hc : startsW (str "ebs.storage.") s <;>
      simp [patStep, TimeseriesPattern.matches, TimeseriesPattern.metric_names, hu,
        okBind, hc, specCond, specName, condUpd, het, ha, List.foldlM, pureOk]
  case tsEbsPiops =>
    by_cases hsl : s = str "ebs.piops" <;>
      simp [patStep, TimeseriesPattern.matches, TimeseriesPattern.metric_names, hu,
        okBind, hsl, specCond, specName, condUpd, het, ha, List.foldlM, pureOk]
  case tsEbsIops =>
    by_cases hsl : s = str "ebs.iops" <;>
      simp [patStep, TimeseriesPattern.matches, TimeseriesPattern.metric_names, hu,
        okBind, hsl, specCond, specName, condUpd, het, ha, List.foldlM, pureOk]
  case tsEbsSnapshot =>
    by_cases hsl : s = str "ebs.snapshot" <;>
      simp [patStep, TimeseriesPattern.matches, TimeseriesPattern.metric_names, hu,
        okBind, hsl, specCond, specName, condUpd, het, ha, List.foldlM, pureOk]
  case tsRdsInstanceType =>
    cases hc : startsW (str "rds-instance.") s <;>
      simp [patStep, TimeseriesPattern.matches, TimeseriesPattern.metric_names, hu,
        okBind, hc, specCond, specName, condUpd, het, ha, List.foldlM, pureOk]
  case tsRdsStorage =>
    cases hc : startsW (str "rds.storage.") s <;>
      simp [patStep, TimeseriesPattern.matches, TimeseriesPattern.metric_names, hu,
        okBind, hc, specCond, specName, condUpd, het, ha, List.foldlM, pureOk]
  case tsRdsPiops =>
    by_cases hsl : s = str "rds.piops" <;>
      simp [patStep, TimeseriesPattern.matches, TimeseriesPattern.metric_names, hu,
        okBind, hsl, specCond, specName, condUpd, het, ha, List.foldlM, pureOk]
  case tsElasticacheInstanceType =>
    cases hc : startsW (str "elasticache-instance.") s <;>
      simp [patStep, TimeseriesPattern.matches, TimeseriesPattern.metric_names, hu,
        okBind, hc, specCond, specName, condUpd, het, ha, List.foldlM, pureOk]
  case tsRegionTotal =>
    simp [patStep, TimeseriesPattern.matches, TimeseriesPattern.metric_names,
      okBind, specCond, specName, condUpd, het, ha, List.foldlM, pureOk]

/-- With a string usage type, every pattern's `match` returns its
condition. -/
theorem matches_eval (r : Row) (s : Str) (hu : r.usage_type = .ok (some s)) :
    ∀ p : TimeseriesPattern, p.matches r = .ok (specCond s p) := by
  intro p
  cases p
  case tsInstanceType =>
    rcases s with _ | ⟨c, cs⟩ <;>
      simp [TimeseriesPattern.matches, hu, okBind, specCond, startsW, pureOk]
  all_goals
    simp [TimeseriesPattern.matches, hu, okBind, specCond, pureOk]

/-- With a string usage type, every pattern names exactly its own metric. -/
theorem names_eval (r : Row) (s : Str) (hu : r.usage_type = .ok (some s)) :
    ∀ p : TimeseriesPattern, p.metric_names r = .ok [specName r s p] := by
  intro p
  cases p <;> simp [TimeseriesPattern.metric_names, hu, okBind, specName, pureOk]

/-- A monadic fold whose last step always fails, fails. -/
theorem foldlM_last_error {α β : Type} (f : β → α → Except PyErr β) :
    ∀ (l : List α) (x : α), (∀ acc, ∃ e, f acc x = .error e) →
    ∀ acc, ∃ e, List.foldlM f acc (l ++ [x]) = .error e := by
  intro l x hx
  induction l with
  | nil =>
    intro acc
    obtain ⟨e, he⟩ := hx acc
    exact ⟨e, by simp [List.foldlM, he, errBind]⟩
  | cons p rest ih =>
    intro acc
    rcases hstep : f acc p with e | acc'
    · exact ⟨e, by simp [List.foldlM, hstep, errBind]⟩
    · obtain ⟨e, he⟩ := ih acc'
      refine ⟨e, ?_⟩
      rw [show (p :: rest) ++ [x] = p :: (rest ++ [x]) from rfl]
      simp only [List.foldlM, hstep, okBind]
      exact he

/-- A specific pattern's metric name never collides with the catch-all
name: their lengths force the usage type to have exactly 10 characters,
which no match condition permits. -/
theorem join2_ne_total (region s : Str) (h : s.length ≠ 10) :
    join2 region s ≠ str "total-cost." ++ region := by
  intro hh
  have hl := congrArg List.length hh
  simp only [join2, List.length_append, List.length_cons] at hl
  have h11 : (str "total-cost.").length = 11 := rfl
  omega

theorem two_ind (a x : ℚ) (P Q : Prop) [Decidable P] [Decidable Q] (h : ¬(P ∧ Q)) :
    x + (if P then a else 0) + (if Q then a else 0) = x + (if P ∨ Q then a else 0) := by
  by_cases hp : P <;> by_cases hq : Q <;> simp [hp, hq]
  exact absurd ⟨hp, hq⟩ h

/-- The first nine patterns of the fixed set (the catch-all comes last). -/
def specPatterns : List TimeseriesPattern :=
  [.tsInstanceType, .tsEbsStorage, .tsEbsPiops, .tsEbsIops, .tsEbsSnapshot,
   .tsRdsInstanceType, .tsRdsStorage, .tsRdsPiops, .tsElasticacheInstanceType]

/-- Distributing the ten conditional additions of one pattern loop: the
nine specific conditions are mutually exclusive and share the metric name
`region.usage_type`, which never equals the catch-all name, so the sum
collapses to the claim's single existential condition. -/
theorem indicator_sum (x a : ℚ) (r : Row) (s n : Str) :
    x + (if specCond s .tsInstanceType = true ∧ n = specName r s .tsInstanceType then a else 0)
      + (if specCond s .tsEbsStorage = true ∧ n = specName r s .tsEbsStorage then a else 0)
      + (if specCond s .tsEbsPiops = true ∧ n = specName r s .tsEbsPiops then a else 0)
      + (if specCond s .tsEbsIops = true ∧ n = specName r s .tsEbsIops then a else 0)
      + (if specCond s .tsEbsSnapshot = true ∧ n = specName r s .tsEbsSnapshot then a else 0)
      + (if specCond s .tsRdsInstanceType = true ∧ n = specName r s .tsRdsInstanceType then a else 0)
      + (if specCond s .tsRdsStorage = true ∧ n = specName r s .tsRdsStorage then a else 0)
      + (if specCond s .tsRdsPiops = true ∧ n = specName r s .tsRdsPiops then a else 0)
      + (if specCond s .tsElasticacheInstanceType = true ∧ n = specName r s .tsElasticacheInstanceType then a else 0)
      + (if specCond s .tsRegionTotal = true ∧ n = specName r s .tsRegionTotal then a else 0)
    = x + (if (∃ p ∈ [TimeseriesPattern.tsInstanceType, .tsEbsStorage, .tsEbsPiops,
          .tsEbsIops, .tsEbsSnapshot, .tsRdsInstanceType, .tsRdsStorage, .tsRdsPiops,
          .tsElasticacheInstanceType, .tsRegionTotal],
        specCond s p = true ∧ n = specName r s p) then a else 0) := by
  simp only [specCond, specName, List.mem_cons, List.not_mem_nil, or_false,
    exists_eq_or_imp, exists_eq_left, decide_eq_true_eq, eq_self_iff_true, true_and,
    exists_false, false_or, or_self]
  by_cases h1 : startsW (str "ec2-instance.") s = true
  · have f2 : startsW (str "ebs.storage.") s = false := startsW_false_of h1 (by decide) (by decide)
    have f6 : startsW (str "rds-instance.") s = false := startsW_false_of h1 (by decide) (by decide)
    have f7 : startsW (str "rds.storage.") s = false := startsW_false_of h1 (by decide) (by decide)
    have f9 : startsW (str "elasticache-instance.") s = false := startsW_false_of h1 (by decide) (by decide)
    have e3 : s ≠ str "ebs.piops" := ne_lit_of_startsW h1 (by decide)
    have e4 : s ≠ str "ebs.iops" := ne_lit_of_startsW h1 (by decide)
    have e5 : s ≠ str "ebs.snapshot" := ne_lit_of_startsW h1 (by decide)
    have e8 : s ≠ str "rds.piops" := ne_lit_of_startsW h1 (by decide)
    have hne : join2 r.region s ≠ str "total-cost." ++ r.region := by
      refine join2_ne_total r.region s ?_
      obtain ⟨t, rfl⟩ := exists_of_startsW h1
      rw [List.length_append]
      have hle : (str "ec2-instance.").length = 13 := rfl
      omega
    simp only [h1, f2, f6, f7, f9, e3, e4, e5, e8, true_and, false_and, if_false,
      add_zero, false_or, or_false, Bool.false_eq_true]
    exact two_ind a x _ _ (fun hh => hne (hh.1 ▸ hh.2))
  · by_cases h2 : startsW (str "ebs.storage.") s = true
    · have f6 : startsW (str "rds-instance.") s = false := startsW_false_of h2 (by decide) (by decide)
      have f7 : startsW (str "rds.storage.") s = false := startsW_false_of h2 (by decide) (by decide)
      have f9 : startsW (str "elasticache-instance.") s = false := startsW_false_of h2 (by decide) (by decide)
      have e3 : s ≠ str "ebs.piops" := ne_lit_of_startsW h2 (by decide)
      have e4 : s ≠ str "ebs.iops" := ne_lit_of_startsW h2 (by decide)
      have e5 : s ≠ str "ebs.snapshot" := ne_lit_of_startsW h2 (by decide)
      have e8 : s ≠ str "rds.piops" := ne_lit_of_startsW h2 (by decide)
      have hne : join2 r.region s ≠ str "total-cost." ++ r.region := by
        refine join2_ne_total r.region s ?_
        obtain ⟨t, rfl⟩ := exists_of_startsW h2
        rw [List.length_append]
        have hle : (str "ebs.storage.").length = 12 := rfl
        omega
      simp only [h1, h2, f6, f7, f9, e3, e4, e5, e8, true_and, false_and, if_false,
        add_zero, false_or, or_false, Bool.false_eq_true]
      exact two_ind a x _ _ (fun hh => hne (hh.1 ▸ hh.2))
    · by_cases h3 : s = str "ebs.piops"
      · subst h3
        have f6 : startsW (str "rds-instance.") (str "ebs.piops") = false := by decide
        have f7 : startsW (str "rds.storage.") (str "ebs.piops") = false := by decide
        have f9 : startsW (str "elasticache-instance.") (str "ebs.piops") = false := by decide
        have e4 : (str "ebs.piops" : Str) ≠ str "ebs.iops" := by decide
        have e5 : (str "ebs.piops" : Str) ≠ str "ebs.snapshot" := by decide
        have e8 : (str "ebs.piops" : Str) ≠ str "rds.piops" := by decide
        have hne : join2 r.region (str "ebs.piops") ≠ str "total-cost." ++ r.region :=
          join2_ne_total r.region (str "ebs.piops") (by decide)
        simp only [h1, h2, f6, f7, f9, e4, e5, e8, true_and, false_and, if_false,
          add_zero, false_or, or_false, Bool.false_eq_true, if_true, eq_self_iff_true]
        exact two_ind a x _ _ (fun hh => hne (hh.1 ▸ hh.2))
      · by_cases h4 : s = str "ebs.iops"
        · subst h4
          have f6 : startsW (str "rds-instance.") (str "ebs.iops") = false := by decide
          have f7 : startsW (str "rds.storage.") (str "ebs.iops") = false := by decide
          have f9 : startsW (str "elasticache-instance.") (str "ebs.iops") = false := by decide
          have e5 : (str "ebs.iops" : Str) ≠ str "ebs.snapshot" := by decide
          have e8 : (str "ebs.iops" : Str) ≠ str "rds.piops" := by decide
          have hne : join2 r.region (str "ebs.iops") ≠ str "total-cost." ++ r.region :=
            join2_ne_total r.region (str "ebs.iops") (by decide)
          simp only [h1, h2, h3, f6, f7, f9, e5, e8, true_and, false_and, if_false,
            add_zero, false_or, or_false, Bool.false_eq_true, if_true, eq_self_iff_true]
          exact two_ind a x _ _ (fun hh => hne (hh.1 ▸ hh.2))
        · by_cases h5 : s = str "ebs.snapshot"
          · subst h5
            have f6 : startsW (str "rds-instance.") (str "ebs.snapshot") = false := by decide
            have f7 : startsW (str "rds.storage.") (str "ebs.snapshot") = false := by decide
            have f9 : startsW (str "elasticache-instance.") (str "ebs.snapshot") = false := by decide
            have e8 : (str "ebs.snapshot" : Str) ≠ str "rds.piops" := by decide
            have hne : join2 r.region (str "ebs.snapshot") ≠ str "total-cost." ++ r.region :=
              join2_ne_total r.region (str "ebs.snapshot") (by decide)
            simp only [h1, h2, h3, h4, f6, f7, f9, e8, true_and, false_and, if_false,
              add_zero, false_or, or_false, Bool.false_eq_true, if_true, eq_self_iff_true]
            exact two_ind a x _ _ (fun hh => hne (hh.1 ▸ hh.2))
          · by_cases h6 : startsW (str "rds-instance.") s = true
            · have f7 : startsW (str "rds.storage.") s = false := startsW_false_of h6 (by decide) (by decide)
              have f9 : startsW (str "elasticache-instance.") s = false := startsW_false_of h6 (by decide) (by decide)
              have e8 : s ≠ str "rds.piops" := ne_lit_of_startsW h6 (by decide)
              have hne : join2 r.region s ≠ str "total-cost." ++ r.region := by
                refine join2_ne_total r.region s ?_
                obtain ⟨t, rfl⟩ := exists_of_startsW h6
                rw [List.length_append]
                have hle : (str "rds-instance.").length = 13 := rfl
                omega
              simp only [h1, h2, h3, h4, h5, h6, f7, f9, e8, true_and, false_and, if_false,
                add_zero, false_or, or_false, Bool.false_eq_true]
              exact two_ind a x _ _ (fun hh => hne (hh.1 ▸ hh.2))
            · by_cases h7 : startsW (str "rds.storage.") s = true
              · have f9 : startsW (str "elasticache-instance.") s = false := startsW_false_of h7 (by decide) (by decide)
                have e8 : s ≠ str "rds.piops" := ne_lit_of_startsW h7 (by decide)
                have hne : join2 r.region s ≠ str "total-cost." ++ r.region := by
                  refine join2_ne_total r.region s ?_
                  obtain ⟨t, rfl⟩ := exists_of_startsW h7
                  rw [List.length_append]
                  have hle : (str "rds.storage.").length = 12 := rfl
                  omega
                simp only [h1, h2, h3, h4, h5, h6, h7, f9, e8, true_and, false_and, if_false,
                  add_zero, false_or, or_false, Bool.false_eq_true]
                exact two_ind a x _ _ (fun hh => hne (hh.1 ▸ hh.2))
              · by_cases h8 : s = str "rds.piops"
                · subst h8
                  have f9 : startsW (str "elasticache-instance.") (str "rds.piops") = false := by decide
                  have hne : join2 r.region (str "rds.piops") ≠ str "total-cost." ++ r.region :=
                    join2_ne_total r.region (str "rds.piops") (by decide)
                  simp only [h1, h2, h3, h4, h5, h6, h7, f9, true_and, false_and, if_false,
                    add_zero, false_or, or_false, Bool.false_eq_true, if_true, eq_self_iff_true]
                  exact two_ind a x _ _ (fun hh => hne (hh.1 ▸ hh.2))
                · by_cases h9 : startsW (str "elasticache-instance.") s = true
                  · have hne : join2 r.region s ≠ str "total-cost." ++ r.region := by
                      refine join2_ne_total r.region s ?_
                      obtain ⟨t, rfl⟩ := exists_of_startsW h9
                      rw [List.length_append]
                      have hle : (str "elasticache-instance.").length = 21 := rfl
                      omega
                    simp only [h1, h2, h3, h4, h5, h6, h7, h8, h9, true_and, false_and, if_false,
                      add_zero, false_or, or_false, Bool.false_eq_true]
                    exact two_ind a x _ _ (fun hh => hne (hh.1 ▸ hh.2))
                  · simp only [h1, h2, h3, h4, h5, h6, h7, h8, h9, true_and, false_and, if_false,
                      add_zero, false_or, or_false, Bool.false_eq_true]

/-- One `process` pattern loop adds the record's amount to exactly the
buckets the claim names: the specific pattern's metric (at most one
matches) and the catch-all regional total. -/
theorem patterns_fold (L L' : MetricLedger) (r : Row)
    (htype : r.lineItemType = str "Usage") (hint : r.interval = .ok 3600)
    (h : List.foldlM (patStep r) L stdPatterns = .ok L') :
    L'.patterns = L.patterns ∧
    ∀ n ts, L'.timeseries n ts
      = L.timeseries n ts + (if rowContributes r n ts then amountD r else 0) := by
  rcases hu : r.usage_type with e | u
  · exfalso
    have h1 : patStep r L .tsInstanceType = .error e := by
      simp [patStep, TimeseriesPattern.matches, hu, errBind]
    simp [stdPatterns, new_metric_ledger, List.foldlM, h1, errBind] at h
  rcases u with _ | s
  · exfalso
    have h1 : patStep r L .tsInstanceType = .ok L := by
      simp [patStep, TimeseriesPattern.matches, hu, okBind, pureOk]
    have h2 : patStep r L .tsEbsStorage = .error .attributeError := by
      simp [patStep, TimeseriesPattern.matches, hu, okBind, errBind]
    simp [stdPatterns, new_metric_ledger, List.foldlM, h1, h2, okBind, errBind] at h
  rcases het : r.end_time with e | et
  · exfalso
    have hx : ∀ acc : MetricLedger, ∃ e', patStep r acc .tsRegionTotal = .error e' := by
      intro acc
      exact ⟨e, by simp [patStep, TimeseriesPattern.matches,
        TimeseriesPattern.metric_names, okBind, pureOk, het, errBind, List.foldlM]⟩
    obtain ⟨e', he'⟩ := foldlM_last_error (patStep r) specPatterns .tsRegionTotal hx L
    rw [show stdPatterns = specPatterns ++ [.tsRegionTotal] from rfl, he'] at h
    cases h
  rcases ha : r.amount with e | a
  · exfalso
    have hx : ∀ acc : MetricLedger, ∃ e', patStep r acc .tsRegionTotal = .error e' := by
      intro acc
      exact ⟨e, by simp [patStep, TimeseriesPattern.matches,
        TimeseriesPattern.metric_names, okBind, pureOk, het, ha, errBind, List.foldlM]⟩
    obtain ⟨e', he'⟩ := foldlM_last_error (patStep r) specPatterns .tsRegionTotal hx L
    rw [show stdPatterns = specPatterns ++ [.tsRegionTotal] from rfl, he'] at h
    cases h
  have hsteps := patStep_eval r s et a hu het ha
  rw [condFold r (specCond s) (specName r s) et a stdPatterns L
    (fun p _ M => hsteps p M)] at h
  injection h with h
  subst h
  have hA : amountD r = a := by simp [amountD, ha]
  have hRC : ∀ n ts, rowContributes r n ts ↔
      (ts = et ∧ ∃ p ∈ stdPatterns, specCond s p = true ∧ n = specName r s p) := by
    intro n ts
    unfold rowContributes
    constructor
    · rintro ⟨-, -, h3, p, hp, hm, hnm⟩
      rw [het] at h3
      injection h3 with h3
      rw [matches_eval r s hu p] at hm
      injection hm with hm
      rw [names_eval r s hu p] at hnm
      simp only [okMem, List.mem_singleton] at hnm
      exact ⟨h3.symm, p, hp, hm, hnm⟩
    · rintro ⟨hts, p, hp, hc, hnm⟩
      refine ⟨htype, hint, by rw [het, hts], p, hp, ?_, ?_⟩
      · rw [matches_eval r s hu p, hc]
      · rw [names_eval r s hu p]
        simp only [okMem, List.mem_singleton]
        exact hnm
  constructor
  · simp [stdPatterns, new_metric_ledger, List.foldl, condUpd_patterns]
  · intro n ts
    simp only [hRC n ts, hA]
    simp only [stdPatterns, new_metric_ledger, List.foldl]
    simp only [condUpd_value]
    by_cases hts : ts = et
    · subst hts
      simp only [and_true, true_and, eq_self_iff_true]
      exact indicator_sum (L.timeseries n ts) a r s n
    · simp [hts]

/-- One `process` call moves every bucket by exactly the claim's
per-record contribution. -/
theorem process_step (L : MetricLedger) (r : Row) (L' : MetricLedger)
    (hpat : L.patterns = stdPatterns) (h : L.process r = .ok L') :
    L'.patterns = stdPatterns ∧
    ∀ n ts, L'.timeseries n ts
      = L.timeseries n ts + (if rowContributes r n ts then amountD r else 0) := by
  unfold MetricLedger.process at h
  by_cases htype : r.lineItemType ≠ str "Usage"
  · rw [if_pos htype, pureOk] at h
    injection h with h
    subst h
    refine ⟨hpat, fun n ts => ?_⟩
    have hnc : ¬ rowContributes r n ts := fun hc => htype hc.1
    rw [if_neg hnc, add_zero]
  · rw [if_neg htype] at h
    cases hi : r.interval with
    | error e =>
      rw [hi, errBind] at h
      cases h
    | ok i =>
      rw [hi, okBind] at h
      by_cases h36 : i ≠ 3600
      · rw [if_pos h36, pureOk] at h
        injection h with h
        subst h
        refine ⟨hpat, fun n ts => ?_⟩
        have hnc : ¬ rowContributes r n ts := by
          rintro ⟨-, h2, -⟩
          rw [hi] at h2
          injection h2 with h2
          exact h36 h2
        rw [if_neg hnc, add_zero]
      · have h36' : i = 3600 := not_not.mp h36
        subst h36'
        rw [if_neg h36, hpat] at h
        have hf := patterns_fold L L' r (not_not.mp htype) (by rw [hi]) h
        exact ⟨by rw [hf.1, hpat], hf.2⟩

theorem claimSum_cons (rr : Row) (rows : List Row) (n : Str) (ts : DateTime) :
    claimSum (rr :: rows) n ts
      = (if rowContributes rr n ts then amountD rr else 0) + claimSum rows n ts := by
  unfold claimSum
  by_cases hc : rowContributes rr n ts <;> simp [List.filter_cons, hc]

/-- The invariant, generalised over the starting ledger. -/
theorem processAll_invariant : ∀ (rows : List Row) (L L' : MetricLedger),
    L.patterns = stdPatterns → processAll L rows = .ok L' →
    L'.patterns = stdPatterns ∧
    ∀ n ts, L'.timeseries n ts = L.timeseries n ts + claimSum rows n ts := by
  intro rows
  induction rows with
  | nil =>
    intro L L' hp h
    unfold processAll at h
    rw [show List.foldlM MetricLedger.process L ([] : List Row) = pure L from rfl,
      pureOk] at h
    injection h with h
    subst h
    exact ⟨hp, fun n ts => by simp [claimSum]⟩
  | cons rr rest ih =>
    intro L L' hp h
    unfold processAll at h
    rw [show List.foldlM MetricLedger.process L (rr :: rest)
      = (L.process rr) >>= fun L1 => List.foldlM MetricLedger.process L1 rest from rfl] at h
    cases hstep : L.process rr with
    | error e =>
      rw [hstep, errBind] at h
      cases h
    | ok L1 =>
      rw [hstep, okBind] at h
      obtain ⟨hp1, hv1⟩ := process_step L rr L1 hp hstep
      obtain ⟨hp2, hv2⟩ := ih L1 L' hp1 h
      refine ⟨hp2, fun n ts => ?_⟩
      rw [hv2 n ts, hv1 n ts, claimSum_cons, add_assoc]

/-- C1: after any successful sequence of `process` calls starting from the
fresh ledger of `new_metric_ledger()`, the value at `(n, ts)` equals the
sum of `amount()` over exactly the processed records with
`lineItem/LineItemType = "Usage"`, `interval() = 3600` s, `end_time() = ts`
and some pattern of the set matching with `n` among its metric names. -/
theorem ledger_invariant (rows : List Row) (L' : MetricLedger)
    (h : processAll new_metric_ledger rows = .ok L') (n : Str) (ts : DateTime) :
    L'.timeseries n ts = claimSum rows n ts := by
  have hi := processAll_invariant rows new_metric_ledger L' rfl h
  rw [hi.2 n ts]
  show (0 : ℚ) + _ = _
  rw [zero_add]

/-- A concrete hourly EC2 row for the C1 witness. -/
def rowW : Row :=
  ⟨str "Usage", str "BoxUsage:c3.2xlarge", [], str "1", str "US West (Oregon)", [],
    str "2016-04-04T02:00:00Z/2016-04-04T03:00:00Z", none⟩

/-- The ledger obtained by processing `rowW` once. -/
def ledgerW : MetricLedger :=
  match processAll new_metric_ledger [rowW] with
  | .ok l => l
  | .error _ => new_metric_ledger

/-- Witness for C1: one processed record, one bucket. -/
theorem ledger_invariant_witness :
    processAll new_metric_ledger [rowW] = .ok ledgerW ∧
    ledgerW.timeseries (join2 (str "us-west-2") (str "ec2-instance.c3-2xlarge"))
        ⟨2016, 4, 4, 3, 0, 0⟩
      = claimSum [rowW] (join2 (str "us-west-2") (str "ec2-instance.c3-2xlarge"))
          ⟨2016, 4, 4, 3, 0, 0⟩ :=
  ⟨rfl, ledger_invariant [rowW] ledgerW rfl _ _⟩

/-! ## The manifest resolver -/

/-- Lexicographic byte-wise comparison of Python 2 `str`. -/
def strLt : Str → Str → Bool
  | [], [] => false
  | [], _ :: _ => true
  | _ :: _, [] => false
  | a :: as, b :: bs => if a = b then strLt as bs else decide (a.toNat < b.toNat)

theorem strLt_conn : ∀ a b : Str, a ≠ b → strLt a b = true ∨ strLt b a = true := by
  intro a
  induction a with
  | nil =>
    intro b hne
    match b with
    | [] => exact absurd rfl hne
    | _ :: _ => exact Or.inl rfl
  | cons x xs ih =>
    intro b hne
    match b with
    | [] => exact Or.inr rfl
    | y :: ys =>
      by_cases hxy : x = y
      · subst hxy
        have hne2 : xs ≠ ys := fun hh => hne (by rw [hh])
        rcases ih ys hne2 with h | h
        · exact Or.inl (by simp [strLt, h])
        · exact Or.inr (by simp [strLt, h])
      · have hv : x.toNat ≠ y.toNat := fun hh => hxy (Char.ext (UInt32.ext hh))
        rcases Nat.lt_or_ge x.toNat y.toNat with h | h
        · exact Or.inl (by simp [strLt, if_neg hxy, h])
        · have hgt : y.toNat < x.toNat := lt_of_le_of_ne h (Ne.symm hv)
          exact Or.inr (by simp [strLt, if_neg (Ne.symm hxy), hgt])

theorem strLt_asymm : ∀ a b : Str, strLt a b = true → strLt b a = true → False := by
  intro a
  induction a with
  | nil =>
    intro b h1 h2
    match b with
    | [] => cases h1
    | _ :: _ => cases h2
  | cons x xs ih =>
    intro b h1 h2
    match b with
    | [] => cases h1
    | y :: ys =>
      by_cases hxy : x = y
      · subst hxy
        simp only [strLt, if_pos rfl] at h1 h2
        exact ih ys h1 h2
      · simp only [strLt, if_neg hxy, if_neg (Ne.symm hxy), decide_eq_true_eq] at h1 h2
        omega

theorem strLt_trans : ∀ a b c : Str, strLt a b = true → strLt b c = true → strLt a c = true := by
  intro a
  induction a with
  | nil =>
    intro b c h1 h2
    match b, c with
    | [], _ => cases h1
    | _ :: _, [] => cases h2
    | _ :: _, _ :: _ => rfl
  | cons x xs ih =>
    intro b c h1 h2
    match b, c with
    | [], _ => cases h1
    | _ :: _, [] => cases h2
    | y :: ys, z :: zs =>
      by_cases hxy : x = y <;> by_cases hyz : y = z
      · subst hxy; subst hyz
        simp only [strLt, if_pos rfl] at h1 h2 ⊢
        exact ih ys zs h1 h2
      · subst hxy
        simp only [strLt, if_pos rfl, if_neg hyz] at h1 h2 ⊢
        exact h2
      · subst hyz
        simp only [strLt, if_neg hxy] at h1 ⊢
        exact h1
      · simp only [strLt, if_neg hxy, if_neg hyz, decide_eq_true_eq] at h1 h2
        have hxz : x ≠ z := by
          intro hh
          subst hh
          omega
        simp only [strLt, if_neg hxz, decide_eq_true_eq]
        omega

/-- Python's stable `list.sort`: each element is inserted after the
already-placed elements `y` with `le y x` ("`y` may stay before `x`"). -/
def pyInsert (le : α → α → Bool) : List α → α → List α
  | [], x => [x]
  | y :: ys, x => if le y x then y :: pyInsert le ys x else x :: y :: ys

def pySort (le : α → α → Bool) (l : List α) : List α := l.foldl (pyInsert le) []

theorem pyInsert_perm (le : α → α → Bool) :
    ∀ (l : List α) (x : α), (pyInsert le l x).Perm (x :: l) := by
  intro l x
  induction l with
  | nil => exact List.Perm.refl _
  | cons y ys ih =>
    by_cases h : le y x = true
    · simp only [pyInsert, h, if_true]
      exact (ih.cons y).trans (List.Perm.swap x y ys)
    · simp only [pyInsert, h, if_false]
      exact List.Perm.refl _

theorem pySort_perm (le : α → α → Bool) (l : List α) : (pySort le l).Perm l := by
  have hgen : ∀ (l : List α) (acc : List α),
      (List.foldl (pyInsert le) acc l).Perm (acc ++ l) := by
    intro l
    induction l with
    | nil => intro acc; simp
    | cons x xs ih =>
      intro acc
      have h1 := ih (pyInsert le acc x)
      have h2 : (pyInsert le acc x ++ xs).Perm ((x :: acc) ++ xs) :=
        (pyInsert_perm le acc x).append_right xs
      have h3 : ((x :: acc) ++ xs).Perm (acc ++ x :: xs) := by
        simp only [List.cons_append]
        exact List.perm_middle.symm
      exact (h1.trans h2).trans h3
  simpa using hgen l []

theorem pyInsert_pairwise (le : α → α → Bool)
    (htot : ∀ a b, le a b = true ∨ le b a = true)
    (htrans : ∀ a b c, le a b = true → le b c = true → le a c = true)
    (l : List α) (x : α) (hl : l.Pairwise (fun a b => le a b = true)) :
    (pyInsert le l x).Pairwise (fun a b => le a b = true) := by
  induction l with
  | nil => simp [pyInsert]
  | cons y ys ih =>
    rcases List.pairwise_cons.mp hl with ⟨hy, hys⟩
    by_cases h : le y x = true
    · simp only [pyInsert, h, if_true]
      refine List.pairwise_cons.mpr ⟨?_, ih hys⟩
      intro z hz
      rcases List.mem_cons.mp ((pyInsert_perm le ys x).mem_iff.mp hz) with hz | hz
      · subst hz; exact h
      · exact hy z hz
    · simp only [pyInsert, h, if_false]
      have hx : le x y = true := by
        rcases htot x y with hh | hh
        · exact hh
        · exact absurd hh h
      refine List.pairwise_cons.mpr ⟨?_, hl⟩
      intro z hz
      rcases List.mem_cons.mp hz with hz | hz
      · subst hz; exact hx
      · exact htrans x y z hx (hy z hz)

theorem pySort_pairwise (le : α → α → Bool)
    (htot : ∀ a b, le a b = true ∨ le b a = true)
    (htrans : ∀ a b c, le a b = true → le b c = true → le a c = true)
    (l : List α) : (pySort le l).Pairwise (fun a b => le a b = true) := by
  have hgen : ∀ (l acc : List α), acc.Pairwise (fun a b => le a b = true) →
      (List.foldl (pyInsert le) acc l).Pairwise (fun a b => le a b = true) := by
    intro l
    induction l with
    | nil => intro acc h; simpa using h
    | cons x xs ih =>
      intro acc h
      exact ih _ (pyInsert_pairwise le htot htrans acc x h)
  exact hgen l [] (by simp)

/-- Keys kept by `s3_primary_manifests`: `o.key.endswith("Manifest.json")`. -/
def isManifestKey (k : Str) : Bool := endsW (str "Manifest.json") k

/-- A match of the regex `/(\d{8}-\d{8})/` anchored at the head of the
string (a slash, 8 digits, a dash, 8 digits, a slash); returns group 1. -/
def cycleAt : Str → Option Str
  | '/' :: rest =>
    let tok := rest.take 17
    if tok.length = 17 ∧ (tok.take 8).all Char.isDigit ∧ tok.get? 8 = some '-'
        ∧ (tok.drop 9).all Char.isDigit ∧ rest.get? 17 = some '/' then
      some tok
    else none
  | _ => none

/-- `re.search`: the leftmost match of the cycle pattern in a key. -/
def findCycle : Str → Option Str
  | [] => none
  | c :: rest =>
    match cycleAt (c :: rest) with
    | some tok => some tok
    | none => findCycle rest

/-- The manifest keys, sorted by key in reverse (stable, as in Python). -/
def sortedManifests (objects : List Str) : List Str :=
  pySort (fun y x => !(strLt y x)) (objects.filter isManifestKey)

/-- `sorted(list(cycles))`: the distinct cycle labels in ascending order. -/
def cyclesSorted (objects : List Str) : List Str :=
  pySort (fun y x => !(strLt x y)) ((sortedManifests objects).filterMap findCycle).eraseDups

/-- `sorted(list(cycles))[-2:]`, duplicated when only one cycle exists. -/
def lastTwoCycles (objects : List Str) : List Str :=
  let c := cyclesSorted objects
  let t := c.drop (c.length - 2)
  if t.length < 2 then t ++ t else t

/-- The manifests whose key contains one of the two selected labels. -/
def filteredManifests (objects : List Str) : List Str :=
  (sortedManifests objects).filter
    (fun m => (lastTwoCycles objects).any (fun c => infixW c m))

/-- The filtered manifests, stably sorted by key length. -/
def byLenManifests (objects : List Str) : List Str :=
  pySort (fun y x => decide (y.length ≤ x.length)) (filteredManifests objects)

/-- `s3_primary_manifests` over the listing's keys: raise when no key
yields a cycle label, then return `[manifests[1], manifests[0]]` of the
length-sorted filtered manifests — or just `[manifests[0]]` when both
selected labels coincide. -/
def s3_primary_manifests (objects : List Str) : Except PyErr (List Str) :=
  if (cyclesSorted objects).length = 0 then .error .exception
  else
    match (lastTwoCycles objects).get? 0, (lastTwoCycles objects).get? 1 with
    | some a, some b =>
      if a = b then
        match (byLenManifests objects).get? 0 with
        | some m => .ok [m]
        | none => .error .indexError
      else
        match (byLenManifests objects).get? 1, (byLenManifests objects).get? 0 with
        | some m1, some m0 => .ok [m1, m0]
        | _, _ => .error .indexError
    | _, _ => .error .indexError

/-- Two sorted permutations of each other under an antisymmetric relation
are equal. -/
theorem pairwise_perm_eq {α : Type} {P : α → α → Prop}
    (hanti : ∀ a b, P a b → P b a → a = b) :
    ∀ {l₁ l₂ : List α}, l₁.Perm l₂ → l₁.Pairwise P → l₂.Pairwise P → l₁ = l₂ := by
  intro l₁
  induction l₁ with
  | nil =>
    intro l₂ hp _ _
    exact (hp.nil_eq).symm ▸ rfl
  | cons a t₁ ih =>
    intro l₂ hp h₁ h₂
    match l₂ with
    | [] => exact absurd hp.symm (by simp [List.Perm])
    | b :: t₂ =>
      have hab : a = b := by
        by_cases hh : a = b
        · exact hh
        · have ha2 : a ∈ b :: t₂ := hp.mem_iff.mp (List.mem_cons_self a t₁)
          have hb1 : b ∈ a :: t₁ := hp.mem_iff.mpr (List.mem_cons_self b t₂)
          have hat2 : a ∈ t₂ := by
            rcases List.mem_cons.mp ha2 with h | h
            · exact absurd h hh
            · exact h
          have hbt1 : b ∈ t₁ := by
            rcases List.mem_cons.mp hb1 with h | h
            · exact absurd h.symm hh
            · exact h
          have hPab : P a b := (List.pairwise_cons.mp h₁).1 b hbt1
          have hPba : P b a := (List.pairwise_cons.mp h₂).1 a hat2
          exact hanti a b hPab hPba
      subst hab
      have hpt : t₁.Perm t₂ := hp.cons_inv
      rw [ih hpt (List.pairwise_cons.mp h₁).2 (List.pairwise_cons.mp h₂).2]

/-- The descending key order is total. -/
theorem notLt_total (a b : Str) : (!strLt a b) = true ∨ (!strLt b a) = true := by
  by_cases h : strLt a b = true
  · right
    simp only [Bool.not_eq_true']
    by_contra hh
    exact strLt_asymm a b h (by revert hh; cases strLt b a <;> simp)
  · left
    simp only [Bool.not_eq_true']
    revert h
    cases strLt a b <;> simp

/-- The descending key order is transitive. -/
theorem notLt_trans (a b c : Str) :
    (!strLt a b) = true → (!strLt b c) = true → (!strLt a c) = true := by
  simp only [Bool.not_eq_true']
  intro hab hbc
  by_contra hh
  have hac : strLt a c = true := by revert hh; cases strLt a c <;> simp
  by_cases hba : a = b
  · subst hba
    rw [hac] at hbc
    cases hbc
  · by_cases hbc2 : b = c
    · subst hbc2
      rw [hac] at hab
      cases hab
    · rcases strLt_conn a b hba with h | h
      · rw [h] at hab; cases hab
      · rcases strLt_conn b c hbc2 with h2 | h2
        · rw [h2] at hbc; cases hbc
        · exact strLt_asymm a c hac (strLt_trans c b a h2 h)

/-- The descending key order is antisymmetric. -/
theorem notLt_antisymm (a b : Str) :
    (!strLt a b) = true → (!strLt b a) = true → a = b := by
  simp only [Bool.not_eq_true']
  intro hab hba
  by_contra hne
  rcases strLt_conn a b hne with h | h
  · rw [h] at hab; cases hab
  · rw [h] at hba; cases hba

/-- The reverse key sort of the manifests depends only on the multiset of
listed keys. -/
theorem sortedManifests_perm_eq (l₁ l₂ : List Str) (hperm : l₁.Perm l₂) :
    sortedManifests l₁ = sortedManifests l₂ := by
  have hfil : (l₁.filter isManifestKey).Perm (l₂.filter isManifestKey) :=
    hperm.filter _
  have hp : (sortedManifests l₁).Perm (sortedManifests l₂) :=
    ((pySort_perm _ _).trans hfil).trans (pySort_perm _ _).symm
  exact pairwise_perm_eq (fun a b => notLt_antisymm a b) hp
    (pySort_pairwise _ notLt_total notLt_trans _)
    (pySort_pairwise _ notLt_total notLt_trans _)

/-! ## Claim C6: order invariance of the manifest resolution -/

/-- C6: `s3_primary_manifests` returns the same result for every
permutation of the listing: the result depends only on which keys are
present, through string comparison alone. -/
theorem s3_order_invariant (l₁ l₂ : List Str) (hperm : l₁.Perm l₂) :
    s3_primary_manifests l₁ = s3_primary_manifests l₂ := by
  have h := sortedManifests_perm_eq l₁ l₂ hperm
  unfold s3_primary_manifests byLenManifests filteredManifests lastTwoCycles cyclesSorted
  rw [h]

/-- Witness for C6: a transposed two-key listing. -/
theorem s3_order_invariant_witness :
    s3_primary_manifests
        [str "a/20160401-20160501/Manifest.json", str "b/20160301-20160401/Manifest.json"]
      = s3_primary_manifests
        [str "b/20160301-20160401/Manifest.json", str "a/20160401-20160501/Manifest.json"] :=
  s3_order_invariant _ _ (List.Perm.swap _ _ _)

/-! ## Claim C5: primary manifest selection -/

theorem lenLe_total (a b : Str) :
    decide (a.length ≤ b.length) = true ∨ decide (b.length ≤ a.length) = true := by
  rcases Nat.le_total a.length b.length with h | h
  · exact Or.inl (decide_eq_true h)
  · exact Or.inr (decide_eq_true h)

theorem lenLe_trans (a b c : Str) :
    decide (a.length ≤ b.length) = true → decide (b.length ≤ c.length) = true →
    decide (a.length ≤ c.length) = true := by
  simp only [decide_eq_true_eq]
  omega

/-- In a sorted list, a strict minimum is the head. -/
theorem sorted_head {α : Type} {le : α → α → Bool} :
    ∀ {l : List α}, l.Pairwise (fun a b => le a b = true) → ∀ x : α, x ∈ l →
    (∀ y ∈ l, y ≠ x → le y x = false) → l.get? 0 = some x := by
  intro l hpw x hx hmin
  match l with
  | [] => cases hx
  | h :: t =>
    by_cases hh : h = x
    · rw [hh]
      rfl
    · exfalso
      have hxt : x ∈ t := by
        rcases List.mem_cons.mp hx with h1 | h1
        · exact absurd h1.symm hh
        · exact h1
      have hle : le h x = true := (List.pairwise_cons.mp hpw).1 x hxt
      rw [hmin h (List.mem_cons_self h t) hh] at hle
      cases hle

/-- C5 (amended): when the two selected cycle labels differ, the function
returns the second-shortest and the shortest keyed manifests, in that
order, among the (distinct) manifests whose key contains one of the two
labels — under the intended layout these are the older cycle's primary
followed by the newer cycle's primary. With a single distinct label it
returns the shortest such manifest alone. -/
theorem s3_primary_selection :
    (∀ (l : List Str) (a b pA pB : Str),
      lastTwoCycles l = [a, b] → a ≠ b →
      (filteredManifests l).Nodup →
      pA ∈ filteredManifests l → pB ∈ filteredManifests l → pA ≠ pB →
      (∀ m ∈ filteredManifests l, m ≠ pB → pB.length < m.length) →
      (∀ m ∈ filteredManifests l, m ≠ pB → m ≠ pA → pA.length < m.length) →
      s3_primary_manifests l = .ok [pA, pB]) ∧
    (∀ (l : List Str) (c pB : Str),
      cyclesSorted l = [c] →
      pB ∈ filteredManifests l →
      (∀ m ∈ filteredManifests l, m ≠ pB → pB.length < m.length) →
      s3_primary_manifests l = .ok [pB]) := by
  constructor
  · intro l a b pA pB hlt hab hnd hA hB hABne hBmin hAmin
    have hc0 : ¬ (cyclesSorted l).length = 0 := by
      intro h0
      have hnil : cyclesSorted l = [] := List.length_eq_zero.mp h0
      unfold lastTwoCycles at hlt
      rw [hnil] at hlt
      simp at hlt
    have hperm : (byLenManifests l).Perm (filteredManifests l) := pySort_perm _ _
    have hpw := pySort_pairwise (fun y x : Str => decide (y.length ≤ x.length))
      lenLe_total lenLe_trans (filteredManifests l)
    have h0 : (byLenManifests l).get? 0 = some pB := by
      refine sorted_head hpw pB (hperm.mem_iff.mpr hB) ?_
      intro y hy hne
      exact decide_eq_false (by
        have := hBmin y (hperm.mem_iff.mp hy) hne
        omega)
    rcases hS : byLenManifests l with _ | ⟨h, t⟩
    · rw [hS] at h0
      cases h0
    · rw [hS] at h0
      have hhB : h = pB := by
        injection h0
      rw [hhB] at hS
      have hnd2 : (pB :: t).Nodup := by
        rw [← hS]
        exact (hperm.nodup_iff).mpr hnd
      have hpBt : pB ∉ t := (List.nodup_cons.mp hnd2).1
      have hpw2 : (pB :: t).Pairwise (fun y x : Str => decide (y.length ≤ x.length) = true) := by
        rw [← hS]
        exact hpw
      have h1 : t.get? 0 = some pA := by
        refine sorted_head (List.pairwise_cons.mp hpw2).2 pA ?_ ?_
        · have : pA ∈ pB :: t := by
            rw [← hS]
            exact hperm.mem_iff.mpr hA
          rcases List.mem_cons.mp this with hh | hh
          · exact absurd hh hABne
          · exact hh
        · intro z hz hne
          have hzF : z ∈ filteredManifests l := by
            refine hperm.mem_iff.mp ?_
            rw [hS]
            exact List.mem_cons_of_mem pB hz
          have hzB : z ≠ pB := fun hh => hpBt (hh ▸ hz)
          exact decide_eq_false (by
            have := hAmin z hzF hzB hne
            omega)
      unfold s3_primary_manifests
      rw [if_neg hc0, hlt]
      simp only [List.get?]
      rw [if_neg hab, hS]
      simp only [List.get?, h1]
  · intro l c pB hcy hB hBmin
    have hlt : lastTwoCycles l = [c, c] := by
      unfold lastTwoCycles
      rw [hcy]
      rfl
    have hc0 : ¬ (cyclesSorted l).length = 0 := by
      rw [hcy]
      simp
    have hperm : (byLenManifests l).Perm (filteredManifests l) := pySort_perm _ _
    have hpw := pySort_pairwise (fun y x : Str => decide (y.length ≤ x.length))
      lenLe_total lenLe_trans (filteredManifests l)
    have h0 : (byLenManifests l).get? 0 = some pB := by
      refine sorted_head hpw pB (hperm.mem_iff.mpr hB) ?_
      intro y hy hne
      exact decide_eq_false (by
        have := hBmin y (hperm.mem_iff.mp hy) hne
        omega)
    unfold s3_primary_manifests
    rw [if_neg hc0, hlt]
    simp only [List.get?]
    simp only [if_true, h0]

/-- Counterexample to C5 as stated: with two distinct cycles where the
older cycle's only (hence shortest) manifest has a longer key than a
sub-manifest of the newer cycle, the function returns the two shortest
keys overall — both from the newer cycle — and drops the older cycle's
primary entirely, instead of returning one manifest per cycle. -/
theorem s3_primary_cycle_counterexample :
    lastTwoCycles
        [str "x/20160202-20160302/Manifest.json",
         str "y/20160202-20160302/1/Manifest.json",
         str "zzzzzzzzzz/20160101-20160201/Manifest.json"]
      = [str "20160101-20160201", str "20160202-20160302"] ∧
    infixW (str "20160101-20160201") (str "zzzzzzzzzz/20160101-20160201/Manifest.json") = true ∧
    s3_primary_manifests
        [str "x/20160202-20160302/Manifest.json",
         str "y/20160202-20160302/1/Manifest.json",
         str "zzzzzzzzzz/20160101-20160201/Manifest.json"]
      = .ok [str "y/20160202-20160302/1/Manifest.json",
             str "x/20160202-20160302/Manifest.json"] ∧
    infixW (str "20160101-20160201") (str "y/20160202-20160302/1/Manifest.json") = false ∧
    infixW (str "20160101-20160201") (str "x/20160202-20160302/Manifest.json") = false := by
  refine ⟨by decide, by decide, by decide, by decide, by decide⟩

/-- Witness for C5 on a layout with strictly increasing key lengths, and
on a single-cycle listing. -/
theorem s3_primary_selection_witness :
    s3_primary_manifests
        [str "p/hourly_billing/20160501-20160601/hourly_billing-Manifest.json",
         str "pre/hourly_billing/20160401-20160501/hourly_billing-Manifest.json",
         str "p/hourly_billing/20160501-20160601/batch1aa/hourly_billing-Manifest.json",
         str "pre/hourly_billing/20160401-20160501/batch2bb/hourly_billing-Manifest.json",
         str "x/hourly_billing/20160301-20160401/hourly_billing-Manifest.json",
         str "p/hourly_billing/20160501-20160601/batch1aa/hourly_billing-1.csv.gz"]
      = .ok [str "pre/hourly_billing/20160401-20160501/hourly_billing-Manifest.json",
             str "p/hourly_billing/20160501-20160601/hourly_billing-Manifest.json"] ∧
    s3_primary_manifests
        [str "p/hourly_billing/20160501-20160601/hourly_billing-Manifest.json",
         str "p/hourly_billing/20160501-20160601/batch1aa/hourly_billing-Manifest.json"]
      = .ok [str "p/hourly_billing/20160501-20160601/hourly_billing-Manifest.json"] :=
  ⟨s3_primary_selection.1 _
      (str "20160401-20160501") (str "20160501-20160601")
      (str "pre/hourly_billing/20160401-20160501/hourly_billing-Manifest.json")
      (str "p/hourly_billing/20160501-20160601/hourly_billing-Manifest.json")
      (by decide) (by decide) (by decide) (by decide) (by decide) (by decide)
      (by decide) (by decide),
   s3_primary_selection.2 _
      (str "20160501-20160601")
      (str "p/hourly_billing/20160501-20160601/hourly_billing-Manifest.json")
      (by decide) (by decide) (by decide)⟩
